import Mathlib

set_option maxHeartbeats 1000000
set_option maxRecDepth 8000
set_option linter.unusedVariables false

namespace TonIndex

/-! # Core status and error model

Shallow embedding of the ton-index-cpp smart-contract interface detector,
the masterchain block emulator's trace-id assignment, and the Redis trace
inserter.  Hashes (vm::CellHash, td::Bits256) are modelled as Nat; raw
addresses as String.  External collaborators (the VM `run_get_method`, the
boc codec, `convert::to_raw_address` on slices, `block::StdAddress::parse`,
`parse_token_data`, tlb unpacking) are carried as pre-computed results on
the inputs, so every function below is the exact decision logic of the
corresponding C++ function over those results. -/

/-- ErrorCode constants used by the sources (InsertManager.h).  Their numeric
    values are opaque here; `genericError` stands for a td::Status::Error built
    without an explicit code (code 0), as the external address converter does. -/
inductive ErrorCode where
  | NOT_FOUND_ERROR
  | SMC_INTERFACE_PARSE_ERROR
  | EVENT_PARSE_ERROR
  | DB_ERROR
  | genericError
deriving DecidableEq

/-- A td::Status error value, observed through its code and message. -/
structure Status where
  code : ErrorCode
  message : String
deriving DecidableEq

instance {ε α : Type} [DecidableEq ε] [DecidableEq α] : DecidableEq (Except ε α) := fun a b =>
  match a, b with
  | .ok x, .ok y =>
    if h : x = y then isTrue (by rw [h]) else isFalse (fun c => h (Except.ok.inj c))
  | .error x, .error y =>
    if h : x = y then isTrue (by rw [h]) else isFalse (fun c => h (Except.error.inj c))
  | .ok _, .error _ => isFalse (fun c => Except.noConfusion c)
  | .error _, .ok _ => isFalse (fun c => Except.noConfusion c)

/-- The SmcInterface enum of the detector header. -/
inductive SmcInterface where
  | IT_JETTON_MASTER
  | IT_JETTON_WALLET
  | IT_NFT_COLLECTION
  | IT_NFT_ITEM
deriving DecidableEq

/-- block::StdAddress, reduced to the parts the detectors inspect. -/
structure StdAddress where
  workchain : Int
  addr : String
deriving DecidableEq

/-- convert::to_raw_address on a StdAddress: "workchain:account_hex"
    (the converter lives in convert-utils outside these sources; the raw
    format is the one the sources themselves build for Redis keys). -/
def to_raw_address (a : StdAddress) : String :=
  toString a.workchain ++ ":" ++ a.addr

/-- Token content as produced by parse_token_data. -/
abbrev TokenData := List (String × String)

/-- A vm::Cell as consumed by the detectors: its hash, its base64-encoded boc
    serialization, and the result parse_token_data would give on it.  The boc
    codec and the token-data parser are external; their outputs ride along. -/
structure Cell where
  hash : Nat
  bocB64 : String
  tokenData : Except Status TokenData
deriving DecidableEq

/-- vm::StackEntry restricted to the cases the detectors inspect.  A slice
    entry carries the result convert::to_raw_address would yield on it. -/
inductive StackEntry where
  | t_int (v : Int)
  | t_slice (rawAddr : Except Status String)
  | t_cell (c : Cell)
  | t_null
deriving DecidableEq

/-- The observable outcome of ton::SmartContract::run_get_method. -/
structure GetMethodResult where
  success : Bool
  stack : List StackEntry
deriving DecidableEq

/-- Side effects a detector emits besides fulfilling its promise.
    CacheManager::add_to_cache performs an entity-cache emplace and an
    upsert to the insert manager; InterfaceManager::set_interface would
    record a code-hash verdict. -/
inductive DetectorEffect where
  | entityCacheEmplace (addr : String)
  | upsertEntity (addr : String)
  | setInterfaceVerdict (codeHash : Nat) (tag : SmcInterface) (verdict : Bool)
deriving DecidableEq

/-- CacheManager::add_to_cache: emplace into the per-address cache and send
    an upsert to the insert manager (part_000, lines 140-153). -/
def CacheManager.add_to_cache (addr : String) : List DetectorEffect :=
  [.entityCacheEmplace addr, .upsertEntity addr]

/-- True iff the effect list contains an interface-cache verdict write. -/
def containsInterfaceWrite (l : List DetectorEffect) : Bool :=
  l.any fun e => match e with
    | .setInterfaceVerdict _ _ _ => true
    | _ => false

/-! # InterfaceManager (part_000, lines 81-102) -/

/-- The InterfaceManager `cache_`: map (code_hash, interface) → bool,
    modelled as an association list with first-match lookup and
    overwrite-in-place assignment (std::map::operator[]). -/
abbrev IMState := List ((Nat × SmcInterface) × Bool)

def imLookup : IMState → Nat → SmcInterface → Option Bool
  | [], _, _ => none
  | e :: rest, h, t => if e.1.1 = h ∧ e.1.2 = t then some e.2 else imLookup rest h t

/-- InterfaceManager::check_interface: cached pair → its verdict, otherwise
    NOT_FOUND_ERROR "Unknown code hash".  The C++ reads the cache only. -/
def InterfaceManager.check_interface (s : IMState) (h : Nat) (t : SmcInterface) :
    Except Status Bool :=
  match imLookup s h t with
  | some b => .ok b
  | none => .error ⟨.NOT_FOUND_ERROR, "Unknown code hash"⟩

/-- InterfaceManager::set_interface: `cache_[(code_hash, interface)] = has`,
    an unconditional overwrite. -/
def InterfaceManager.set_interface : IMState → Nat → SmcInterface → Bool → IMState
  | [], h, t, b => [((h, t), b)]
  | e :: rest, h, t, b =>
    if e.1.1 = h ∧ e.1.2 = t then ((h, t), b) :: rest
    else e :: InterfaceManager.set_interface rest h t b

def emptyIM : IMState := []

/-- A mutating InterfaceManager operation (check_interface does not mutate). -/
inductive IMOp where
  | set (h : Nat) (t : SmcInterface) (b : Bool)
deriving DecidableEq

def applyIMOp (s : IMState) : IMOp → IMState
  | .set h t b => InterfaceManager.set_interface s h t b

def applyIMOps (ops : List IMOp) (s : IMState) : IMState :=
  ops.foldl applyIMOp s

/-- Whether an operation sets the given (code_hash, tag) pair. -/
def opSetsPair : IMOp → Nat → SmcInterface → Prop
  | .set h' t' _, h, t => h' = h ∧ t' = t

instance : ∀ (op : IMOp) (h : Nat) (t : SmcInterface), Decidable (opSetsPair op h t)
  | .set _ _ _, _, _ => inferInstanceAs (Decidable (_ ∧ _))

/-- The verdict of the most recent `set` for the pair within an operation
    list (later operations take precedence). -/
def lastSetVerdict : List IMOp → Nat → SmcInterface → Option Bool
  | [], _, _ => none
  | op :: rest, h, t =>
    match lastSetVerdict rest h t with
    | some b => some b
    | none => match op with
      | .set h2 t2 b => if h2 = h ∧ t2 = t then some b else none

/-! # Detector entry points: code-hash precheck and entity-cache check -/

/-- Outcome of the promise lambda at the top of each detector's detect(). -/
inductive PrecheckStep where
  | proceed
  | fail (s : Status)
deriving DecidableEq

/-- The common body of that lambda (part_000, e.g. lines 172-189): a
    NOT_FOUND_ERROR from check_interface means the code hash was never
    classified — proceed; any other error is propagated; a cached false
    fails with SMC_INTERFACE_PARSE_ERROR and the variant's message; a
    cached true proceeds. -/
def detectPrecheck (msg : String) : Except Status Bool → PrecheckStep
  | .error e => if e.code = .NOT_FOUND_ERROR then .proceed else .fail e
  | .ok b => if b then .proceed else .fail ⟨.SMC_INTERFACE_PARSE_ERROR, msg⟩

/-- The interface tag each detect() passes to check_interface. -/
def jettonMasterDetectTag : SmcInterface := .IT_JETTON_MASTER

def jettonWalletDetectTag : SmcInterface := .IT_JETTON_WALLET

def nftCollectionDetectTag : SmcInterface := .IT_NFT_COLLECTION

/-- NFTItemDetector::detect (part_000, line 720) queries the interface cache
    under IT_NFT_COLLECTION, not IT_NFT_ITEM. -/
def nftItemDetectTag : SmcInterface := .IT_NFT_COLLECTION

/-- The (code_hash, tag) query each detect() sends to InterfaceManager. -/
def jettonMasterDetectQuery (codeHash : Nat) : Nat × SmcInterface :=
  (codeHash, jettonMasterDetectTag)

def jettonWalletDetectQuery (codeHash : Nat) : Nat × SmcInterface :=
  (codeHash, jettonWalletDetectTag)

def nftCollectionDetectQuery (codeHash : Nat) : Nat × SmcInterface :=
  (codeHash, nftCollectionDetectTag)

def nftItemDetectQuery (codeHash : Nat) : Nat × SmcInterface :=
  (codeHash, nftItemDetectTag)

def jettonMasterPrecheckMsg : String := "Code hash is not a Jetton Master"

def jettonWalletPrecheckMsg : String := "Code hash is not a Jetton Wallet"

def nftCollectionPrecheckMsg : String := "Code hash is not a NFT Collection"

/-- NFTItemDetector::detect reuses the collection message (part_000, line 713). -/
def nftItemPrecheckMsg : String := "Code hash is not a NFT Collection"

/-! # Interface-bearing entities (IndexData.h, field list per the detectors'
    own reads and writes) -/

structure JettonMasterData where
  address : String
  total_supply : Int
  mintable : Bool
  admin_address : String
  jetton_content : TokenData
  jetton_wallet_code_hash : Nat
  data_hash : Nat
  code_hash : Nat
  last_transaction_lt : Nat
  code_boc : String
  data_boc : String
deriving DecidableEq

structure JettonWalletData where
  address : String
  balance : Int
  owner : String
  jetton : String
  last_transaction_lt : Nat
  code_hash : Nat
  data_hash : Nat
deriving DecidableEq

structure NFTCollectionData where
  address : String
  next_item_index : Int
  owner_address : String
  collection_content : TokenData
  data_hash : Nat
  code_hash : Nat
  last_transaction_lt : Nat
  code_boc : String
  data_boc : String
deriving DecidableEq

structure NFTItemData where
  address : String
  init : Bool
  index : Int
  collection_address : String
  owner_address : String
  content : TokenData
  last_transaction_lt : Nat
  code_hash : Nat
  data_hash : Nat
deriving DecidableEq

/-- Result of a detect_continue step: either the cached entity is returned
    as is, or control falls through to detect_impl (the VM getter). -/
inductive ContinueStep (α : Type) where
  | returnCached (a : α)
  | runGetter
deriving DecidableEq

/-- JettonMasterDetector::detect_continue (part_000, lines 194-208): given
    the check_cache result, return the cached entity when the code and data
    hashes both match, or when the requested last_tx_lt is strictly below
    the cached last_transaction_lt; otherwise run detect_impl. -/
def JettonMasterDetector.detect_continue (cachedRes : Except Status JettonMasterData)
    (codeHash dataHash lastTxLt : Nat) : ContinueStep JettonMasterData :=
  match cachedRes with
  | .ok c =>
    if (dataHash = c.data_hash ∧ codeHash = c.code_hash) ∨ lastTxLt < c.last_transaction_lt
    then .returnCached c else .runGetter
  | .error _ => .runGetter

/-- JettonWalletDetector::detect_continue (part_000, lines 360-374). -/
def JettonWalletDetector.detect_continue (cachedRes : Except Status JettonWalletData)
    (codeHash dataHash lastTxLt : Nat) : ContinueStep JettonWalletData :=
  match cachedRes with
  | .ok c =>
    if (dataHash = c.data_hash ∧ codeHash = c.code_hash) ∨ lastTxLt < c.last_transaction_lt
    then .returnCached c else .runGetter
  | .error _ => .runGetter

/-- NFTCollectionDetector::detect_continue (part_000, lines 612-626). -/
def NFTCollectionDetector.detect_continue (cachedRes : Except Status NFTCollectionData)
    (codeHash dataHash lastTxLt : Nat) : ContinueStep NFTCollectionData :=
  match cachedRes with
  | .ok c =>
    if (dataHash = c.data_hash ∧ codeHash = c.code_hash) ∨ lastTxLt < c.last_transaction_lt
    then .returnCached c else .runGetter
  | .error _ => .runGetter

/-- NFTItemDetector::detect_continue (part_000, lines 778-792). -/
def NFTItemDetector.detect_continue (cachedRes : Except Status NFTItemData)
    (codeHash dataHash lastTxLt : Nat) : ContinueStep NFTItemData :=
  match cachedRes with
  | .ok c =>
    if (dataHash = c.data_hash ∧ codeHash = c.code_hash) ∨ lastTxLt < c.last_transaction_lt
    then .returnCached c else .runGetter
  | .error _ => .runGetter

/-- Combined outcome of detect() up to (and excluding) the getter run. -/
inductive DetectStep (α : Type) where
  | failedPrecheck (s : Status)
  | returnedCached (a : α)
  | ranGetter
deriving DecidableEq

/-- JettonMasterDetector::detect wired to detect_continue: the precheck runs
    first; only when it proceeds is the entity cache consulted; only when
    that misses does the getter run. -/
def JettonMasterDetector.detect (cacheRes : Except Status Bool)
    (cachedRes : Except Status JettonMasterData)
    (codeHash dataHash lastTxLt : Nat) : DetectStep JettonMasterData :=
  match detectPrecheck jettonMasterPrecheckMsg cacheRes with
  | .fail e => .failedPrecheck e
  | .proceed =>
    match JettonMasterDetector.detect_continue cachedRes codeHash dataHash lastTxLt with
    | .returnCached c => .returnedCached c
    | .runGetter => .ranGetter

def JettonWalletDetector.detect (cacheRes : Except Status Bool)
    (cachedRes : Except Status JettonWalletData)
    (codeHash dataHash lastTxLt : Nat) : DetectStep JettonWalletData :=
  match detectPrecheck jettonWalletPrecheckMsg cacheRes with
  | .fail e => .failedPrecheck e
  | .proceed =>
    match JettonWalletDetector.detect_continue cachedRes codeHash dataHash lastTxLt with
    | .returnCached c => .returnedCached c
    | .runGetter => .ranGetter

def NFTCollectionDetector.detect (cacheRes : Except Status Bool)
    (cachedRes : Except Status NFTCollectionData)
    (codeHash dataHash lastTxLt : Nat) : DetectStep NFTCollectionData :=
  match detectPrecheck nftCollectionPrecheckMsg cacheRes with
  | .fail e => .failedPrecheck e
  | .proceed =>
    match NFTCollectionDetector.detect_continue cachedRes codeHash dataHash lastTxLt with
    | .returnCached c => .returnedCached c
    | .runGetter => .ranGetter

def NFTItemDetector.detect (cacheRes : Except Status Bool)
    (cachedRes : Except Status NFTItemData)
    (codeHash dataHash lastTxLt : Nat) : DetectStep NFTItemData :=
  match detectPrecheck nftItemPrecheckMsg cacheRes with
  | .fail e => .failedPrecheck e
  | .proceed =>
    match NFTItemDetector.detect_continue cachedRes codeHash dataHash lastTxLt with
    | .returnCached c => .returnedCached c
    | .runGetter => .ranGetter

/-! # detect_impl bodies -/

/-- JettonMasterDetector::detect_impl (part_000, lines 210-263), with the
    get_jetton_data run supplied as `res`.  Returns the promise outcome and
    the emitted effects.  Notes kept from the C++: the admin-address branch
    sets the error without an early return, and the following move_as_ok
    aborts on an error result, so the already-fulfilled error is the only
    observable outcome and no effect follows; a failed token-data parse is
    only logged and leaves jetton_content default; code_hash is never
    assigned by this function (it stays default-initialized). -/
def JettonMasterDetector.detect_impl (address : StdAddress) (codeCell dataCell : Cell)
    (lastTxLt : Nat) (res : GetMethodResult) :
    Except Status JettonMasterData × List DetectorEffect :=
  if ¬(res.success = true ∧ res.stack.length = 5) then
    (.error ⟨.SMC_INTERFACE_PARSE_ERROR, "get_jetton_data failed"⟩, [])
  else
    match res.stack with
    | [.t_int totalSupply, .t_int mintableInt, .t_slice adminRaw,
       .t_cell contentCell, .t_cell walletCodeCell] =>
      match adminRaw with
      | .error _ =>
        (.error ⟨.SMC_INTERFACE_PARSE_ERROR, "get_jetton_data address parsing failed"⟩, [])
      | .ok admin =>
        let data : JettonMasterData := {
          address := to_raw_address address
          total_supply := totalSupply
          mintable := mintableInt != 0
          admin_address := admin
          jetton_content := match contentCell.tokenData with | .ok td => td | .error _ => []
          jetton_wallet_code_hash := walletCodeCell.hash
          data_hash := dataCell.hash
          code_hash := 0
          last_transaction_lt := lastTxLt
          code_boc := codeCell.bocB64
          data_boc := dataCell.bocB64 }
        (.ok data, CacheManager.add_to_cache (to_raw_address address))
    | _ => (.error ⟨.SMC_INTERFACE_PARSE_ERROR, "get_jetton_data failed"⟩, [])

/-- NFTCollectionDetector::detect_impl (part_000, lines 628-680), with the
    get_collection_data run supplied as `res`.  Same conventions as the
    jetton-master body. -/
def NFTCollectionDetector.detect_impl (address : StdAddress) (codeCell dataCell : Cell)
    (lastTxLt : Nat) (res : GetMethodResult) :
    Except Status NFTCollectionData × List DetectorEffect :=
  if ¬(res.success = true ∧ res.stack.length = 3) then
    (.error ⟨.SMC_INTERFACE_PARSE_ERROR, "get_collection_data failed"⟩, [])
  else
    match res.stack with
    | [.t_int nextItemIndex, .t_cell contentCell, .t_slice ownerRaw] =>
      match ownerRaw with
      | .error _ =>
        (.error ⟨.SMC_INTERFACE_PARSE_ERROR, "get_collection_data address parsing failed"⟩, [])
      | .ok owner =>
        let data : NFTCollectionData := {
          address := to_raw_address address
          next_item_index := nextItemIndex
          owner_address := owner
          collection_content := match contentCell.tokenData with | .ok td => td | .error _ => []
          data_hash := dataCell.hash
          code_hash := 0
          last_transaction_lt := lastTxLt
          code_boc := codeCell.bocB64
          data_boc := dataCell.bocB64 }
        (.ok data, CacheManager.add_to_cache (to_raw_address address))
    | _ => (.error ⟨.SMC_INTERFACE_PARSE_ERROR, "get_collection_data failed"⟩, [])

/-! # JettonWalletDetector::verify_belonging_to_master (part_000, 529-566) -/

/-- The verification callback.  `parseMaster` and `parseOwner` are the
    results of block::StdAddress::parse on data.jetton and data.owner (the
    parser is external); `masterResp` is what JettonMasterDetector's
    get_wallet_address delivered.  On a NOT_FOUND master the wallet is
    accepted tentatively and cached; on an address mismatch the promise
    fails with "Possibly scam" and nothing is cached; on a match the wallet
    is cached and returned. -/
def JettonWalletDetector.verify_belonging_to_master (data : JettonWalletData)
    (parseMaster parseOwner : Except Status StdAddress)
    (masterResp : Except Status StdAddress) :
    Except Status JettonWalletData × List DetectorEffect :=
  match parseMaster with
  | .error e =>
    (.error ⟨e.code, "Failed to parse jetton master address (" ++ data.jetton ++ "): " ++ e.message⟩, [])
  | .ok _ =>
    match parseOwner with
    | .error e =>
      (.error ⟨e.code, "Failed to parse jetton owner address (" ++ data.owner ++ "): " ++ e.message⟩, [])
    | .ok _ =>
      match masterResp with
      | .error e =>
        if e.code = .NOT_FOUND_ERROR then (.ok data, CacheManager.add_to_cache data.address)
        else (.error e, [])
      | .ok a =>
        if to_raw_address a ≠ data.address then
          (.error ⟨.SMC_INTERFACE_PARSE_ERROR, "Couldn't verify Jetton Wallet. Possibly scam."⟩, [])
        else (.ok data, CacheManager.add_to_cache data.address)

/-! # NFTItemDetector::verify_belonging_to_collection and detect_impl -/

/-- verify_belonging_to_collection (part_000, lines 893-918): the
    get_nft_address_by_index run on the collection is supplied as `res`. -/
def NFTItemDetector.verify_belonging_to_collection (itemData : NFTItemData)
    (collectionData : NFTCollectionData) (res : GetMethodResult) : Except Status Unit :=
  if res.success = false then
    .error ⟨.SMC_INTERFACE_PARSE_ERROR, "get_nft_address_by_index failed"⟩
  else
    match res.stack with
    | [.t_slice raw] =>
      match raw with
      | .error _ =>
        .error ⟨.SMC_INTERFACE_PARSE_ERROR, "get_nft_address_by_index parse address failed"⟩
      | .ok nftAddress =>
        if nftAddress = itemData.address then .ok ()
        else .error ⟨.SMC_INTERFACE_PARSE_ERROR, "NFT Item doesn't belong to the referred collection"⟩
    | _ => .error ⟨.SMC_INTERFACE_PARSE_ERROR, "get_nft_address_by_index failed"⟩

/-- NFTItemDetector::detect_impl (part_000, lines 794-891).  External
    results supplied: `res` — the get_nft_data run; `parseCollAddr` — the
    StdAddress::parse of the collection-address string; `collectionRes` —
    NFTCollectionDetector::get_from_cache; `contentRes` — get_content via
    the collection's get_nft_content; `verifyRes` — the
    get_nft_address_by_index run used by verify_belonging_to_collection.
    Kept from the C++: the collection/owner address-parsing branches set the
    error without an early return and the following move_as_ok aborts, so
    the fulfilled error is the outcome; when verify fails, the error is set
    but control continues, so add_to_cache still runs and the later
    set_value is a no-op on the consumed promise. -/
def NFTItemDetector.detect_impl (address : StdAddress) (codeCell dataCell : Cell)
    (lastTxLt : Nat) (res : GetMethodResult)
    (parseCollAddr : Except Status StdAddress)
    (collectionRes : Except Status NFTCollectionData)
    (contentRes : Except Status TokenData)
    (verifyRes : GetMethodResult) :
    Except Status NFTItemData × List DetectorEffect :=
  if ¬(res.success = true ∧ res.stack.length = 5) then
    (.error ⟨.SMC_INTERFACE_PARSE_ERROR, "get_nft_data failed"⟩, [])
  else
    match res.stack with
    | [.t_int initInt, .t_int index, .t_slice collRaw, .t_slice ownerRaw, .t_cell indContent] =>
      match collRaw with
      | .error _ =>
        (.error ⟨.SMC_INTERFACE_PARSE_ERROR, "get_nft_data collection address parsing failed"⟩, [])
      | .ok collectionAddress =>
        match ownerRaw with
        | .error _ =>
          (.error ⟨.SMC_INTERFACE_PARSE_ERROR, "get_nft_data address parsing failed"⟩, [])
        | .ok ownerAddress =>
          let data0 : NFTItemData := {
            address := to_raw_address address
            init := initInt != 0
            index := index
            collection_address := collectionAddress
            owner_address := ownerAddress
            content := []
            last_transaction_lt := lastTxLt
            code_hash := codeCell.hash
            data_hash := dataCell.hash }
          if collectionAddress = "addr_none" then
            let data := { data0 with
              content := match indContent.tokenData with | .ok td => td | .error _ => [] }
            (.ok data, CacheManager.add_to_cache data.address)
          else
            match parseCollAddr with
            | .error e => (.error e, [])
            | .ok _ =>
              match collectionRes with
              | .error e =>
                if e.code = .NOT_FOUND_ERROR then
                  (.error ⟨.SMC_INTERFACE_PARSE_ERROR, "Collection was not indexed yet"⟩, [])
                else (.error e, [])
              | .ok collectionData =>
                let data := { data0 with
                  content := match contentRes with | .ok td => td | .error _ => data0.content }
                match NFTItemDetector.verify_belonging_to_collection data collectionData verifyRes with
                | .error e =>
                  (.error ⟨e.code,
                     "Failed to verify belonging to collection for " ++ to_raw_address address
                       ++ e.message⟩,
                   CacheManager.add_to_cache data.address)
                | .ok _ => (.ok data, CacheManager.add_to_cache data.address)
    | _ => (.error ⟨.SMC_INTERFACE_PARSE_ERROR, "get_nft_data failed"⟩, [])

/-! # Event parsers (part_000: parse_transfer_impl 444-480, parse_burn_impl
    498-525, NFT parse_transfer_impl 739-775) -/

/-- tokens::gen::InternalMsgBody::Record_transfer_jetton after csr_unpack,
    with the downstream decoding outcomes carried as fields: `amount` is the
    VarUInteger extraction (none = null integer), the address fields carry
    the convert::to_raw_address results, the payload fields carry the
    fetch_maybe_ref outcome (none = fetch failed). -/
structure TransferJettonRecord where
  query_id : Nat
  amount : Option Int
  destination : Except Status String
  response_destination : Except Status String
  custom_payload_fetch : Option (Option Cell)
  forward_ton_amount : Option Int
  forward_payload_fetch : Option (Option Cell)
deriving DecidableEq

structure JettonTransfer where
  transaction_hash : Nat
  query_id : Nat
  amount : Int
  destination : String
  response_destination : String
  custom_payload : Option Cell
  forward_ton_amount : Option Int
  forward_payload : Option Cell
deriving DecidableEq

/-- JettonWalletDetector::parse_transfer_impl.  `unpacked` is none when
    tlb::csr_unpack fails.  Kept from the C++: the destination and
    response-destination branches set the converter's own error on the
    promise without an early return; the promise is one-shot, so that error
    is the observable outcome (the subsequent move_as_ok aborts on the
    error result and nothing further is observable). -/
def JettonWalletDetector.parse_transfer_impl (txHash : Nat)
    (unpacked : Option TransferJettonRecord) : Except Status JettonTransfer :=
  match unpacked with
  | none => .error ⟨.EVENT_PARSE_ERROR, "Failed to unpack transfer"⟩
  | some r =>
    match r.amount with
    | none => .error ⟨.EVENT_PARSE_ERROR, "Failed to unpack transfer amount"⟩
    | some amount =>
      match r.destination with
      | .error e => .error e
      | .ok dest =>
        match r.response_destination with
        | .error e => .error e
        | .ok respDest =>
          match r.custom_payload_fetch with
          | none => .error ⟨.EVENT_PARSE_ERROR, "Failed to fetch custom payload"⟩
          | some customPayload =>
            match r.forward_payload_fetch with
            | none => .error ⟨.EVENT_PARSE_ERROR, "Failed to fetch forward payload"⟩
            | some forwardPayload =>
              .ok { transaction_hash := txHash
                    query_id := r.query_id
                    amount := amount
                    destination := dest
                    response_destination := respDest
                    custom_payload := customPayload
                    forward_ton_amount := r.forward_ton_amount
                    forward_payload := forwardPayload }

/-- Record_burn after csr_unpack, same conventions. -/
structure BurnRecord where
  query_id : Nat
  amount : Option Int
  response_destination : Except Status String
  custom_payload_fetch : Option (Option Cell)
deriving DecidableEq

structure JettonBurn where
  transaction_hash : Nat
  query_id : Nat
  amount : Int
  response_destination : String
  custom_payload : Option Cell
deriving DecidableEq

/-- JettonWalletDetector::parse_burn_impl.  Here the response-destination
    error branch does return early, still propagating the converter's own
    error unchanged. -/
def JettonWalletDetector.parse_burn_impl (txHash : Nat)
    (unpacked : Option BurnRecord) : Except Status JettonBurn :=
  match unpacked with
  | none => .error ⟨.EVENT_PARSE_ERROR, "Failed to unpack burn"⟩
  | some r =>
    match r.amount with
    | none => .error ⟨.EVENT_PARSE_ERROR, "Failed to unpack burn amount"⟩
    | some amount =>
      match r.response_destination with
      | .error e => .error e
      | .ok respDest =>
        match r.custom_payload_fetch with
        | none => .error ⟨.EVENT_PARSE_ERROR, "Failed to fetch custom payload"⟩
        | some customPayload =>
          .ok { transaction_hash := txHash
                query_id := r.query_id
                amount := amount
                response_destination := respDest
                custom_payload := customPayload }

/-- Record_transfer_nft after csr_unpack, same conventions. -/
structure TransferNftRecord where
  query_id : Nat
  new_owner : Except Status String
  response_destination : Except Status String
  custom_payload_fetch : Option (Option Cell)
  forward_amount : Option Int
  forward_payload_fetch : Option (Option Cell)
deriving DecidableEq

structure NFTTransfer where
  transaction_hash : Nat
  query_id : Nat
  nft_item : String
  old_owner : String
  new_owner : String
  response_destination : String
  custom_payload : Option Cell
  forward_amount : Option Int
  forward_payload : Option Cell
deriving DecidableEq

/-- NFTItemDetector::parse_transfer_impl.  `inMsgFrom` is
    transaction.in_msg_from; its absence sets EVENT_PARSE_ERROR without an
    early return, and the following .value() on the empty optional throws,
    so the fulfilled error is the observable outcome.  The new-owner and
    response-destination branches propagate the converter's own error. -/
def NFTItemDetector.parse_transfer_impl (txHash : Nat) (account : String)
    (inMsgFrom : Option String) (unpacked : Option TransferNftRecord) :
    Except Status NFTTransfer :=
  match unpacked with
  | none => .error ⟨.EVENT_PARSE_ERROR, "Failed to unpack transfer"⟩
  | some r =>
    match inMsgFrom with
    | none => .error ⟨.EVENT_PARSE_ERROR, "Failed to fetch NFT old owner address"⟩
    | some oldOwner =>
      match r.new_owner with
      | .error e => .error e
      | .ok newOwner =>
        match r.response_destination with
        | .error e => .error e
        | .ok respDest =>
          match r.custom_payload_fetch with
          | none => .error ⟨.EVENT_PARSE_ERROR, "Failed to fetch custom payload"⟩
          | some customPayload =>
            match r.forward_payload_fetch with
            | none => .error ⟨.EVENT_PARSE_ERROR, "Failed to fetch forward payload"⟩
            | some forwardPayload =>
              .ok { transaction_hash := txHash
                    query_id := r.query_id
                    nft_item := account
                    old_owner := oldOwner
                    new_owner := newOwner
                    response_destination := respDest
                    custom_payload := customPayload
                    forward_amount := r.forward_amount
                    forward_payload := forwardPayload }

/-! # McBlockEmulator::process_txs (part_002, lines 276-310) -/

/-- TransactionInfo as produced by BlockParser, reduced to the fields
    process_txs reads.  Hashes are Nats; BlockParser never assigns
    initial_msg_hash, so inputs carry none there. -/
structure TransactionInfo where
  hash : Nat
  lt : Nat
  in_msg_hash : Nat
  is_first : Bool
  out_msgs : List Nat
  initial_msg_hash : Option Nat
deriving DecidableEq

/-- interblock_trace_ids_: hash → trace id, an association list with
    first-match lookup and overwrite-on-assign (unordered_map operator[]). -/
abbrev TraceIdMap := List (Nat × Nat)

def mapLookup : TraceIdMap → Nat → Option Nat
  | [], _ => none
  | e :: rest, k => if e.1 = k then some e.2 else mapLookup rest k

def mapInsert : TraceIdMap → Nat → Nat → TraceIdMap
  | [], k, v => [(k, v)]
  | e :: rest, k, v => if e.1 = k then (k, v) :: rest else e :: mapInsert rest k v

/-- txs_by_out_msg_hash: out-message hash → a copy of the transaction made
    before the assignment loop runs.  unordered_map::insert keeps the first
    entry per key. -/
def omLookup : List (Nat × TransactionInfo) → Nat → Option TransactionInfo
  | [], _ => none
  | e :: rest, k => if e.1 = k then some e.2 else omLookup rest k

def omInsert (m : List (Nat × TransactionInfo)) (k : Nat) (tx : TransactionInfo) :
    List (Nat × TransactionInfo) :=
  match omLookup m k with
  | some _ => m
  | none => m ++ [(k, tx)]

def buildTxsByOutMsgHash (txs : List TransactionInfo) : List (Nat × TransactionInfo) :=
  txs.foldl (fun m tx => tx.out_msgs.foldl (fun m o => omInsert m o tx) m) []

/-- The if/else-if cascade of the assignment loop, exactly as written:
    external-in transaction → its in-message hash; else, a frozen map hit
    whose copied initial_msg_hash has a value → that value; else, an
    interblock_trace_ids hit → that value; else none (the tx is skipped). -/
def assignInitialCode (frozen : List (Nat × TransactionInfo)) (ib : TraceIdMap)
    (tx : TransactionInfo) : Option Nat :=
  if tx.is_first then some tx.in_msg_hash
  else
    match omLookup frozen tx.in_msg_hash with
    | some p =>
      match p.initial_msg_hash with
      | some v => some v
      | none =>
        match mapLookup ib tx.in_msg_hash with
        | some v => some v
        | none => none
    | none =>
      match mapLookup ib tx.in_msg_hash with
      | some v => some v
      | none => none

/-- After an assignment, each out-message hash is written into
    interblock_trace_ids with the assigned value. -/
def recordOutMsgs (ib : TraceIdMap) (outs : List Nat) : Option Nat → TraceIdMap
  | some v => outs.foldl (fun m o => mapInsert m o v) ib
  | none => ib

def processStepCode (frozen : List (Nat × TransactionInfo))
    (acc : List TransactionInfo × TraceIdMap) (tx : TransactionInfo) :
    List TransactionInfo × TraceIdMap :=
  let a := assignInitialCode frozen acc.2 tx
  (acc.1 ++ [{ tx with initial_msg_hash := a }], recordOutMsgs acc.2 tx.out_msgs a)

/-- The assignment loop of McBlockEmulator::process_txs over an already
    lt-sorted transaction list: build the frozen txs_by_out_msg_hash map,
    then fold the cascade and the out-message recording over the list. -/
def process_txs_sorted (txs : List TransactionInfo) (ib0 : TraceIdMap) :
    List TransactionInfo × TraceIdMap :=
  txs.foldl (processStepCode (buildTxsByOutMsgHash txs)) ([], ib0)

def insertByLt (tx : TransactionInfo) : List TransactionInfo → List TransactionInfo
  | [] => [tx]
  | t :: ts => if tx.lt < t.lt then tx :: t :: ts else t :: insertByLt tx ts

/-- Ascending-lt ordering of the block's transactions (std::sort with
    lt-comparison; ties in arbitrary order). -/
def sortByLt (txs : List TransactionInfo) : List TransactionInfo :=
  txs.foldr insertByLt []

/-- McBlockEmulator::process_txs: sort by lt, then run the assignment loop. -/
def process_txs (txs : List TransactionInfo) (ib0 : TraceIdMap) :
    List TransactionInfo × TraceIdMap :=
  process_txs_sorted (sortByLt txs) ib0

/-- Follows the spec's words, for comparison with the code: the cascade
    inherits from a previously seen transaction whose out-message set
    contains this transaction's in-message hash and whose initial_msg_hash
    is known, before falling back to the interblock map. -/
def ownerPred (h : Nat) (p : TransactionInfo) : Bool :=
  p.initial_msg_hash.isSome && decide (h ∈ p.out_msgs)

def specAssignInitial (processed : List TransactionInfo) (ib : TraceIdMap)
    (tx : TransactionInfo) : Option Nat :=
  if tx.is_first then some tx.in_msg_hash
  else
    match processed.find? (ownerPred tx.in_msg_hash) with
    | some p => p.initial_msg_hash
    | none => mapLookup ib tx.in_msg_hash

def processStepSpec (acc : List TransactionInfo × TraceIdMap) (tx : TransactionInfo) :
    List TransactionInfo × TraceIdMap :=
  let a := specAssignInitial acc.1 acc.2 tx
  (acc.1 ++ [{ tx with initial_msg_hash := a }], recordOutMsgs acc.2 tx.out_msgs a)

/-- Follows the spec's words: the whole per-block assignment pass. -/
def specProcessTxs (txs : List TransactionInfo) (ib0 : TraceIdMap) :
    List TransactionInfo × TraceIdMap :=
  txs.foldl processStepSpec ([], ib0)

/-- The relation the interblock map keeps with the processed prefix: a hash
    owned by an already-assigned processed transaction maps to that
    transaction's assignment; any other hash still maps as in the initial
    (previous blocks') map. -/
def IbInv (procs : List TransactionInfo) (ib ib0 : TraceIdMap) : Prop :=
  ∀ h : Nat, mapLookup ib h =
    match procs.find? (ownerPred h) with
    | some p => p.initial_msg_hash
    | none => mapLookup ib0 h

/-! # TaskResultInserter (part_001, lines 169-292) -/

/-- The parsed transaction data of one trace node, as parse_tx yields it
    and as the Redis writer consumes it: in-message hash, out-message
    hashes, the "workchain:account_hex" key, and the logical time. -/
structure STx where
  inMsg : Nat
  outs : List Nat
  account : String
  lt : Nat
deriving DecidableEq

/-- The msgpack-stored value of one trace node: its transaction plus the
    emulated flag. -/
structure TraceNodeS where
  tx : STx
  emulated : Bool
deriving DecidableEq

/-- A Trace tree node as handed to the inserter: parsed transaction,
    emulated flag, detected interfaces, children. -/
inductive TTree where
  | mk (tx : STx) (emulated : Bool) (ifaces : List String) (children : List TTree)

/-- One entry of the BFS-flattened trace. -/
structure FlatNode where
  tx : STx
  emulated : Bool
  ifaces : List String
deriving DecidableEq

mutual

def TTree.sizeT : TTree → Nat
  | .mk _ _ _ cs => 1 + sizeChildren cs

def sizeChildren : List TTree → Nat
  | [] => 0
  | t :: ts => TTree.sizeT t + sizeChildren ts

end

theorem sizeChildren_append (a b : List TTree) :
    sizeChildren (a ++ b) = sizeChildren a + sizeChildren b := by
  induction a with
  | nil => simp [sizeChildren]
  | cons t ts ih => simp [sizeChildren, ih]; omega

/-- The BFS queue walk of start_up: pop the front node, push its children
    at the back, emit the node. -/
def bfsFlatten : List TTree → List FlatNode
  | [] => []
  | .mk tx em ifs cs :: rest =>
    { tx := tx, emulated := em, ifaces := ifs } :: bfsFlatten (rest ++ cs)
termination_by l => sizeChildren l
decreasing_by
  simp [sizeChildren_append, sizeChildren, TTree.sizeT]
  omega

/-- Generic association-list lookup (first match). -/
def assocGet {κ ν : Type} [DecidableEq κ] : List (κ × ν) → κ → Option ν
  | [], _ => none
  | e :: rest, k => if e.1 = k then some e.2 else assocGet rest k

/-- Generic association-list overwrite (replace the first match in place,
    else append). -/
def assocSet {κ ν : Type} [DecidableEq κ] : List (κ × ν) → κ → ν → List (κ × ν)
  | [], k, v => [(k, v)]
  | e :: rest, k, v => if e.1 = k then (k, v) :: rest else e :: assocSet rest k v

/-- The stored transaction table of the Redis model: (trace id, in-message
    hash) → stored node. -/
abbrev TxDb := List ((Nat × Nat) × TraceNodeS)

mutual

/-- TaskResultInserter::delete_db_subtree: read the stored node at
    (trace id, key); if present, recurse through its stored out-message
    hashes, then record the key for hdel and the (account, member) pair
    for zrem.  The C++ recursion is unbounded; `fuel` bounds the modelled
    depth. -/
def delete_db_subtree (db : TxDb) (traceId : Nat) :
    Nat → Nat → List Nat × List (String × (Nat × Nat))
  | 0, _ => ([], [])
  | fuel + 1, key =>
    match assocGet db (traceId, key) with
    | none => ([], [])
    | some node =>
      let cr := deleteChildren db traceId fuel node.tx.outs
      (cr.1 ++ [key], cr.2 ++ [(node.tx.account, (traceId, node.tx.inMsg))])

def deleteChildren (db : TxDb) (traceId : Nat) (fuel : Nat) :
    List Nat → List Nat × List (String × (Nat × Nat))
  | [] => ([], [])
  | o :: os =>
    let r := delete_db_subtree db traceId fuel o
    let rs := deleteChildren db traceId fuel os
    (r.1 ++ rs.1, r.2 ++ rs.2)

end

/-- The deletions collected across the BFS walk: every non-emulated node
    contributes the stored subtree below its in-message hash. -/
def collectDeletions (db : TxDb) (traceId fuel : Nat) (flat : List FlatNode) :
    List Nat × List (String × (Nat × Nat)) :=
  flat.foldl (fun acc n =>
    if n.emulated then acc
    else
      let r := delete_db_subtree db traceId fuel n.tx.inMsg
      (acc.1 ++ r.1, acc.2 ++ r.2)) ([], [])

/-- addr_interfaces: account → interfaces, last write wins over BFS order. -/
def collectAddrIfaces (flat : List FlatNode) : List (String × List String) :=
  flat.foldl (fun m n => assocSet m n.tx.account n.ifaces) []

/-- The commands queued on the sw::redis transaction. -/
inductive RedisCmd where
  | hdel (traceId : Nat) (field : Nat)
  | zrem (zkey : String) (member : Nat × Nat)
  | hset (traceId : Nat) (field : Nat) (value : TraceNodeS)
  | zadd (zkey : String) (member : Nat × Nat) (score : Nat)
  | hsetIfaces (traceId : Nat) (addr : String) (ifaces : List String)
  | publish (channel : String) (payload : Nat)
deriving DecidableEq

/-- The key-value store state: the per-trace transaction hash fields, the
    per-trace interface hash fields (string fields of the same Redis hash,
    modelled separately since their field namespaces differ), the sorted
    sets, and the published events. -/
structure KvState where
  txFields : TxDb
  ifaceFields : List ((Nat × String) × List String)
  zsets : List ((String × (Nat × Nat)) × Nat)
  published : List (String × Nat)
deriving DecidableEq

def applyCmd (s : KvState) : RedisCmd → KvState
  | .hdel tid f => { s with txFields := s.txFields.filter (fun e => decide (e.1 ≠ (tid, f))) }
  | .zrem zk m => { s with zsets := s.zsets.filter (fun e => decide (e.1 ≠ (zk, m))) }
  | .hset tid f v => { s with txFields := assocSet s.txFields (tid, f) v }
  | .zadd zk m sc => { s with zsets := assocSet s.zsets (zk, m) sc }
  | .hsetIfaces tid a ifs => { s with ifaceFields := assocSet s.ifaceFields (tid, a) ifs }
  | .publish c p => { s with published := s.published ++ [(c, p)] }

/-- MULTI/EXEC: the queued commands are applied in order in one step. -/
def execCmds (s : KvState) (cmds : List RedisCmd) : KvState :=
  cmds.foldl applyCmd s

/-- TaskResultInserter::start_up as the single command list it queues on
    the transaction: every collected deletion first (hdel then zrem), then
    every flattened node's hset and zadd, then the interface hsets, then
    the new_trace publish.  The subtree walk reads the pre-transaction
    store (`db`). -/
def start_up_cmds (db : TxDb) (fuel traceId : Nat) (root : TTree) : List RedisCmd :=
  let flat := bfsFlatten [root]
  let dels := collectDeletions db traceId fuel flat
  (dels.1.map (RedisCmd.hdel traceId)) ++
  (dels.2.map (fun p => RedisCmd.zrem p.1 p.2)) ++
  (flat.flatMap (fun n =>
    [RedisCmd.hset traceId n.tx.inMsg ⟨n.tx, n.emulated⟩,
     RedisCmd.zadd n.tx.account (traceId, n.tx.inMsg) n.tx.lt])) ++
  ((collectAddrIfaces flat).map (fun p => RedisCmd.hsetIfaces traceId p.1 p.2)) ++
  [RedisCmd.publish "new_trace" traceId]

/-- The whole insertion: queue the commands against the pre-state's stored
    table and execute them atomically. -/
def start_up_run (pre : KvState) (fuel traceId : Nat) (root : TTree) : KvState :=
  execCmds pre (start_up_cmds pre.txFields fuel traceId root)

/-- Reachability through stored out-message references: `StoredReach db tid
    l k k'` means k' is reached from k in l steps walking stored nodes of
    trace tid, with every visited key (k' included) present in the store. -/
inductive StoredReach (db : TxDb) (traceId : Nat) : Nat → Nat → Nat → Prop where
  | refl (k : Nat) (nd : TraceNodeS) :
      assocGet db (traceId, k) = some nd → StoredReach db traceId 0 k k
  | step (k : Nat) (nd : TraceNodeS) (k' l k'' : Nat) :
      assocGet db (traceId, k) = some nd → k' ∈ nd.tx.outs →
      StoredReach db traceId l k' k'' → StoredReach db traceId (l + 1) k k''

/-! # InterfaceManager lemmas -/

theorem imLookup_set_self (s : IMState) (h : Nat) (t : SmcInterface) (b : Bool) :
    imLookup (InterfaceManager.set_interface s h t b) h t = some b := by
  induction s with
  | nil => simp [InterfaceManager.set_interface, imLookup]
  | cons e rest ih =>
    by_cases hc : e.1.1 = h ∧ e.1.2 = t
    · simp [InterfaceManager.set_interface, hc, imLookup]
    · simp only [InterfaceManager.set_interface, if_neg hc, imLookup]
      exact ih

theorem imLookup_set_ne (s : IMState) (h h' : Nat) (t t' : SmcInterface) (b : Bool)
    (hne : ¬(h = h' ∧ t = t')) :
    imLookup (InterfaceManager.set_interface s h t b) h' t' = imLookup s h' t' := by
  induction s with
  | nil => simp [InterfaceManager.set_interface, imLookup, hne]
  | cons e rest ih =>
    by_cases hc : e.1.1 = h ∧ e.1.2 = t
    · obtain ⟨h1, h2⟩ := hc
      simp only [InterfaceManager.set_interface, h1, h2, and_self, if_true, imLookup]
      simp [hne]
    · simp only [InterfaceManager.set_interface, if_neg hc, imLookup]
      by_cases hc' : e.1.1 = h' ∧ e.1.2 = t'
      · rw [if_pos hc', if_pos hc']
      · rw [if_neg hc', if_neg hc']
        exact ih

theorem check_applyIMOps (ops : List IMOp) (s : IMState) (h : Nat) (t : SmcInterface) :
    InterfaceManager.check_interface (applyIMOps ops s) h t =
    match lastSetVerdict ops h t with
    | some b => .ok b
    | none => InterfaceManager.check_interface s h t := by
  induction ops generalizing s with
  | nil => simp [applyIMOps, lastSetVerdict]
  | cons op rest ih =>
    cases op with
    | set h2 t2 b =>
      have hstep : applyIMOps (IMOp.set h2 t2 b :: rest) s =
          applyIMOps rest (InterfaceManager.set_interface s h2 t2 b) := rfl
      rw [hstep, ih]
      show _ = match lastSetVerdict (IMOp.set h2 t2 b :: rest) h t with
        | some c => Except.ok c
        | none => InterfaceManager.check_interface s h t
      simp only [lastSetVerdict]
      cases lastSetVerdict rest h t with
      | some c => rfl
      | none =>
        by_cases hc : h2 = h ∧ t2 = t
        · obtain ⟨e1, e2⟩ := hc
          subst e1; subst e2
          simp only [and_self, if_true]
          simp [InterfaceManager.check_interface, imLookup_set_self]
        · simp only [if_neg hc]
          simp [InterfaceManager.check_interface, imLookup_set_ne s h2 h t2 t b hc]

theorem lastSetVerdict_none_of_no_touch (post : List IMOp) (h : Nat) (t : SmcInterface)
    (hno : ∀ op ∈ post, ¬ opSetsPair op h t) : lastSetVerdict post h t = none := by
  induction post with
  | nil => rfl
  | cons op rest ih =>
    have hrest : ∀ op ∈ rest, ¬ opSetsPair op h t :=
      fun op hop => hno op (List.mem_cons_of_mem _ hop)
    cases op with
    | set ha ta b =>
      have h1 : ¬(ha = h ∧ ta = t) := hno (.set ha ta b) (List.mem_cons_self _ _)
      simp only [lastSetVerdict, ih hrest, if_neg h1]

/-! # Claim C10 -/

/-- C10: after set_interface(code_hash, tag, v) with no intervening set for
    the same pair, check_interface returns exactly v; for a pair never set,
    check_interface fails with NOT_FOUND_ERROR "Unknown code hash".  The
    embedded check_interface is a pure read — it consults no getter and
    returns no modified state — matching the C++ body, which only reads
    cache_ (the hit path's operator[] is on a key already known present). -/
theorem c10_interface_manager_semantics :
    (∀ (s : IMState) (post : List IMOp) (h : Nat) (t : SmcInterface) (v : Bool),
      (∀ op ∈ post, ¬ opSetsPair op h t) →
      InterfaceManager.check_interface
        (applyIMOps post (InterfaceManager.set_interface s h t v)) h t = .ok v)
    ∧ (∀ (ops : List IMOp) (h : Nat) (t : SmcInterface),
      lastSetVerdict ops h t = none →
      InterfaceManager.check_interface (applyIMOps ops emptyIM) h t =
        .error ⟨.NOT_FOUND_ERROR, "Unknown code hash"⟩) := by
  constructor
  · intro s post h t v hno
    rw [check_applyIMOps, lastSetVerdict_none_of_no_touch post h t hno]
    simp [InterfaceManager.check_interface, imLookup_set_self]
  · intro ops h t hnone
    rw [check_applyIMOps, hnone]
    rfl

theorem c10_witness :
    InterfaceManager.check_interface
      (applyIMOps [IMOp.set 1 .IT_NFT_ITEM false]
        (InterfaceManager.set_interface emptyIM 7 .IT_JETTON_MASTER true))
      7 .IT_JETTON_MASTER = .ok true
    ∧ InterfaceManager.check_interface (applyIMOps [IMOp.set 1 .IT_NFT_ITEM false] emptyIM)
        7 .IT_JETTON_MASTER = .error ⟨.NOT_FOUND_ERROR, "Unknown code hash"⟩ :=
  ⟨c10_interface_manager_semantics.1 emptyIM [IMOp.set 1 .IT_NFT_ITEM false]
      7 .IT_JETTON_MASTER true (by decide),
   c10_interface_manager_semantics.2 [IMOp.set 1 .IT_NFT_ITEM false]
      7 .IT_JETTON_MASTER (by decide)⟩

/-! # Claim C2 -/

/-- C2 (amended): over any sequence of InterfaceManager operations,
    check_interface returns the verdict of the most recent set_interface
    for the pair; a recorded verdict changes only through a later
    set_interface for the same pair.  The original claim — that a recorded
    verdict never flips at all — fails, because set_interface overwrites
    unconditionally (see the counterexample). -/
theorem c2_verdict_last_set :
    ∀ (ops : List IMOp) (h : Nat) (t : SmcInterface) (b : Bool),
      lastSetVerdict ops h t = some b →
      InterfaceManager.check_interface (applyIMOps ops emptyIM) h t = .ok b := by
  intro ops h t b hlast
  rw [check_applyIMOps, hlast]

/-- C2 counterexample: recording true and then false for the same
    (code_hash, tag) pair makes a later check_interface return false — the
    verdict flipped from the first recorded value. -/
theorem c2_counterexample :
    InterfaceManager.check_interface
      (applyIMOps [IMOp.set 0 .IT_JETTON_MASTER true, IMOp.set 0 .IT_JETTON_MASTER false] emptyIM)
      0 .IT_JETTON_MASTER = .ok false
    ∧ (Except.ok false : Except Status Bool) ≠ .ok true := by
  constructor
  · rfl
  · intro hcontra
    exact Bool.noConfusion (Except.ok.inj hcontra)

theorem c2_witness :
    InterfaceManager.check_interface
      (applyIMOps [IMOp.set 5 .IT_NFT_COLLECTION true] emptyIM) 5 .IT_NFT_COLLECTION = .ok true :=
  c2_verdict_last_set [IMOp.set 5 .IT_NFT_COLLECTION true] 5 .IT_NFT_COLLECTION true (by decide)

/-! # Claim C1 -/

/-- C1 (amended): for each of the four detector variants, a cached entity
    is returned unchanged (byte-identical), without the VM getter running,
    whenever the requested last_tx_lt is strictly below the cached
    last_transaction_lt, or both the code and data cell hashes equal the
    cached ones.  The original claim's "less than or equal" fails: at
    equality with differing hashes the getter runs (see the
    counterexample). -/
theorem c1_entity_cache_cutoff :
    (∀ (c : JettonMasterData) (ch dh lt : Nat),
      (dh = c.data_hash ∧ ch = c.code_hash) ∨ lt < c.last_transaction_lt →
      JettonMasterDetector.detect_continue (.ok c) ch dh lt = .returnCached c)
    ∧ (∀ (c : JettonWalletData) (ch dh lt : Nat),
      (dh = c.data_hash ∧ ch = c.code_hash) ∨ lt < c.last_transaction_lt →
      JettonWalletDetector.detect_continue (.ok c) ch dh lt = .returnCached c)
    ∧ (∀ (c : NFTCollectionData) (ch dh lt : Nat),
      (dh = c.data_hash ∧ ch = c.code_hash) ∨ lt < c.last_transaction_lt →
      NFTCollectionDetector.detect_continue (.ok c) ch dh lt = .returnCached c)
    ∧ (∀ (c : NFTItemData) (ch dh lt : Nat),
      (dh = c.data_hash ∧ ch = c.code_hash) ∨ lt < c.last_transaction_lt →
      NFTItemDetector.detect_continue (.ok c) ch dh lt = .returnCached c) := by
  refine ⟨?_, ?_, ?_, ?_⟩ <;>
    · intro c ch dh lt hcond
      simp only [JettonMasterDetector.detect_continue, JettonWalletDetector.detect_continue,
        NFTCollectionDetector.detect_continue, NFTItemDetector.detect_continue]
      rw [if_pos hcond]

/-- C1 counterexample: a jetton master entity cached with
    last_transaction_lt = 5; a detect call with requested last_tx_lt = 5
    (which satisfies the claim's "less than or equal") and cell hashes
    differing from the cached ones falls through to the VM getter instead
    of returning the cached entity. -/
theorem c1_counterexample :
    JettonMasterDetector.detect_continue
      (.ok { address := "0:aa", total_supply := 1, mintable := true,
             admin_address := "0:bb", jetton_content := [],
             jetton_wallet_code_hash := 3, data_hash := 1, code_hash := 1,
             last_transaction_lt := 5, code_boc := "", data_boc := "" })
      2 2 5 = .runGetter := by
  rfl

theorem c1_witness :
    JettonMasterDetector.detect_continue
      (.ok { address := "0:aa", total_supply := 1, mintable := true,
             admin_address := "0:bb", jetton_content := [],
             jetton_wallet_code_hash := 3, data_hash := 1, code_hash := 1,
             last_transaction_lt := 5, code_boc := "", data_boc := "" })
      1 1 99 = .returnCached
      { address := "0:aa", total_supply := 1, mintable := true,
        admin_address := "0:bb", jetton_content := [],
        jetton_wallet_code_hash := 3, data_hash := 1, code_hash := 1,
        last_transaction_lt := 5, code_boc := "", data_boc := "" } :=
  c1_entity_cache_cutoff.1 _ 1 1 99 (Or.inl ⟨rfl, rfl⟩)

/-! # Claim C7 -/

/-- C7 (amended): every detect() first consults the interface cache on the
    supplied code cell's hash; a cached false fails immediately with
    SMC_INTERFACE_PARSE_ERROR and the variant's message — no entity-cache
    check or getter runs; a cached true or a NOT_FOUND_ERROR miss lets
    detection proceed; any other cache error is propagated to the caller
    unchanged.  The tag queried is the variant's own for the jetton master,
    jetton wallet and NFT collection detectors, but IT_NFT_COLLECTION — not
    IT_NFT_ITEM — for the NFT item detector (see the counterexample). -/
theorem c7_code_hash_precheck :
    (∀ (msg : String) (e : Status), e.code ≠ .NOT_FOUND_ERROR →
      detectPrecheck msg (.error e) = .fail e)
    ∧ (∀ (msg : String) (e : Status), e.code = .NOT_FOUND_ERROR →
      detectPrecheck msg (.error e) = .proceed)
    ∧ (∀ msg : String, detectPrecheck msg (.ok true) = .proceed)
    ∧ (∀ msg : String, detectPrecheck msg (.ok false) =
        .fail ⟨.SMC_INTERFACE_PARSE_ERROR, msg⟩)
    ∧ (∀ (cachedRes : Except Status JettonMasterData) (ch dh lt : Nat),
      JettonMasterDetector.detect (.ok false) cachedRes ch dh lt =
        .failedPrecheck ⟨.SMC_INTERFACE_PARSE_ERROR, jettonMasterPrecheckMsg⟩)
    ∧ (∀ (cachedRes : Except Status JettonWalletData) (ch dh lt : Nat),
      JettonWalletDetector.detect (.ok false) cachedRes ch dh lt =
        .failedPrecheck ⟨.SMC_INTERFACE_PARSE_ERROR, jettonWalletPrecheckMsg⟩)
    ∧ (∀ (cachedRes : Except Status NFTCollectionData) (ch dh lt : Nat),
      NFTCollectionDetector.detect (.ok false) cachedRes ch dh lt =
        .failedPrecheck ⟨.SMC_INTERFACE_PARSE_ERROR, nftCollectionPrecheckMsg⟩)
    ∧ (∀ (cachedRes : Except Status NFTItemData) (ch dh lt : Nat),
      NFTItemDetector.detect (.ok false) cachedRes ch dh lt =
        .failedPrecheck ⟨.SMC_INTERFACE_PARSE_ERROR, nftItemPrecheckMsg⟩)
    ∧ (∀ ch : Nat, jettonMasterDetectQuery ch = (ch, .IT_JETTON_MASTER))
    ∧ (∀ ch : Nat, jettonWalletDetectQuery ch = (ch, .IT_JETTON_WALLET))
    ∧ (∀ ch : Nat, nftCollectionDetectQuery ch = (ch, .IT_NFT_COLLECTION))
    ∧ (∀ ch : Nat, nftItemDetectQuery ch = (ch, .IT_NFT_COLLECTION)) := by
  refine ⟨?_, ?_, ?_, ?_, ?_, ?_, ?_, ?_, ?_, ?_, ?_, ?_⟩
  · intro msg e hne
    simp [detectPrecheck, hne]
  · intro msg e heq
    simp [detectPrecheck, heq]
  · intro msg; rfl
  · intro msg; rfl
  · intro cachedRes ch dh lt; rfl
  · intro cachedRes ch dh lt; rfl
  · intro cachedRes ch dh lt; rfl
  · intro cachedRes ch dh lt; rfl
  · intro ch; rfl
  · intro ch; rfl
  · intro ch; rfl
  · intro ch; rfl

/-- C7 counterexample: the interface-cache query NFTItemDetector::detect
    issues carries IT_NFT_COLLECTION, which is not the NFT item detector's
    own tag IT_NFT_ITEM — refuting the claim that every detector consults
    the cache under its own variant's tag. -/
theorem c7_counterexample :
    (nftItemDetectQuery 7).2 = SmcInterface.IT_NFT_COLLECTION
    ∧ SmcInterface.IT_NFT_COLLECTION ≠ SmcInterface.IT_NFT_ITEM :=
  ⟨rfl, by decide⟩

theorem c7_witness :
    detectPrecheck "Code hash is not a Jetton Master"
      (.error ⟨.DB_ERROR, "db down"⟩) = .fail ⟨.DB_ERROR, "db down"⟩
    ∧ detectPrecheck "Code hash is not a Jetton Master"
      (.error ⟨.NOT_FOUND_ERROR, "Unknown code hash"⟩) = .proceed :=
  ⟨c7_code_hash_precheck.1 "Code hash is not a Jetton Master" ⟨.DB_ERROR, "db down"⟩ (by decide),
   c7_code_hash_precheck.2.1 "Code hash is not a Jetton Master"
     ⟨.NOT_FOUND_ERROR, "Unknown code hash"⟩ rfl⟩

/-! # Claim C3 -/

/-- C3: for every JettonWallet that detect accepts (the verification promise
    resolves with the wallet): if the master responded, its
    get_wallet_address(owner) equals the wallet's own raw address; a
    differing response fails with SMC_INTERFACE_PARSE_ERROR "Possibly scam"
    and the wallet is not cached; a NOT_FOUND master accepts the wallet
    tentatively and caches it. -/
theorem c3_wallet_master_cross_verification :
    ∀ (data : JettonWalletData) (pm po resp : Except Status StdAddress),
      (∀ d', (JettonWalletDetector.verify_belonging_to_master data pm po resp).1 = .ok d' →
        d' = data ∧
          ((∃ e, resp = .error e ∧ e.code = .NOT_FOUND_ERROR) ∨
           (∃ a, resp = .ok a ∧ to_raw_address a = data.address)))
      ∧ (∀ (m o a : StdAddress), pm = .ok m → po = .ok o → resp = .ok a →
          to_raw_address a ≠ data.address →
          JettonWalletDetector.verify_belonging_to_master data pm po resp =
            (.error ⟨.SMC_INTERFACE_PARSE_ERROR, "Couldn't verify Jetton Wallet. Possibly scam."⟩,
             []))
      ∧ (∀ (m o : StdAddress) (e : Status), pm = .ok m → po = .ok o → resp = .error e →
          e.code = .NOT_FOUND_ERROR →
          JettonWalletDetector.verify_belonging_to_master data pm po resp =
            (.ok data, CacheManager.add_to_cache data.address)) := by
  intro data pm po resp
  refine ⟨?_, ?_, ?_⟩
  · intro d' hok
    cases pm with
    | error e => simp [JettonWalletDetector.verify_belonging_to_master] at hok
    | ok m =>
      cases po with
      | error e => simp [JettonWalletDetector.verify_belonging_to_master] at hok
      | ok o =>
        cases resp with
        | error e =>
          by_cases hc : e.code = .NOT_FOUND_ERROR
          · simp [JettonWalletDetector.verify_belonging_to_master, hc] at hok
            exact ⟨hok.symm, Or.inl ⟨e, rfl, hc⟩⟩
          · simp [JettonWalletDetector.verify_belonging_to_master, hc] at hok
        | ok a =>
          by_cases hc : to_raw_address a = data.address
          · simp [JettonWalletDetector.verify_belonging_to_master, hc] at hok
            exact ⟨hok.symm, Or.inr ⟨a, rfl, hc⟩⟩
          · simp [JettonWalletDetector.verify_belonging_to_master, hc] at hok
  · intro m o a hm ho ha hne
    subst hm; subst ho; subst ha
    simp [JettonWalletDetector.verify_belonging_to_master, hne]
  · intro m o e hm ho he hc
    subst hm; subst ho; subst he
    simp [JettonWalletDetector.verify_belonging_to_master, hc]

theorem c3_witness :
    JettonWalletDetector.verify_belonging_to_master
      { address := "0:aa", balance := 5, owner := "0:bb", jetton := "0:cc",
        last_transaction_lt := 7, code_hash := 1, data_hash := 2 }
      (.ok ⟨0, "cc"⟩) (.ok ⟨0, "bb"⟩) (.error ⟨.NOT_FOUND_ERROR, "not indexed"⟩) =
      (.ok { address := "0:aa", balance := 5, owner := "0:bb", jetton := "0:cc",
             last_transaction_lt := 7, code_hash := 1, data_hash := 2 },
       CacheManager.add_to_cache "0:aa") :=
  (c3_wallet_master_cross_verification
      { address := "0:aa", balance := 5, owner := "0:bb", jetton := "0:cc",
        last_transaction_lt := 7, code_hash := 1, data_hash := 2 }
      (.ok ⟨0, "cc"⟩) (.ok ⟨0, "bb"⟩) (.error ⟨.NOT_FOUND_ERROR, "not indexed"⟩)).2.2
    ⟨0, "cc"⟩ ⟨0, "bb"⟩ ⟨.NOT_FOUND_ERROR, "not indexed"⟩ rfl rfl rfl rfl

/-! # Claim C5 -/

/-- C5 (amended): in the event parsers, a malformed integer amount and a
    failed payload-reference fetch fail the parse with EVENT_PARSE_ERROR
    and no event value; a malformed address (destination, response
    destination, NFT new owner) fails the parse by propagating the address
    decoder's own error status unchanged — not wrapped into
    EVENT_PARSE_ERROR (see the counterexample); a missing NFT old-owner
    in-message source fails with EVENT_PARSE_ERROR. -/
theorem c5_event_parse_failures :
    (∀ (tx : Nat) (r : TransferJettonRecord), r.amount = none →
      JettonWalletDetector.parse_transfer_impl tx (some r) =
        .error ⟨.EVENT_PARSE_ERROR, "Failed to unpack transfer amount"⟩)
    ∧ (∀ (tx : Nat) (r : TransferJettonRecord) (a : Int) (e : Status),
      r.amount = some a → r.destination = .error e →
      JettonWalletDetector.parse_transfer_impl tx (some r) = .error e)
    ∧ (∀ (tx : Nat) (r : TransferJettonRecord) (a : Int) (d : String) (e : Status),
      r.amount = some a → r.destination = .ok d → r.response_destination = .error e →
      JettonWalletDetector.parse_transfer_impl tx (some r) = .error e)
    ∧ (∀ (tx : Nat) (r : TransferJettonRecord) (a : Int) (d rd : String),
      r.amount = some a → r.destination = .ok d → r.response_destination = .ok rd →
      r.custom_payload_fetch = none →
      JettonWalletDetector.parse_transfer_impl tx (some r) =
        .error ⟨.EVENT_PARSE_ERROR, "Failed to fetch custom payload"⟩)
    ∧ (∀ (tx : Nat) (r : TransferJettonRecord) (a : Int) (d rd : String) (cp : Option Cell),
      r.amount = some a → r.destination = .ok d → r.response_destination = .ok rd →
      r.custom_payload_fetch = some cp → r.forward_payload_fetch = none →
      JettonWalletDetector.parse_transfer_impl tx (some r) =
        .error ⟨.EVENT_PARSE_ERROR, "Failed to fetch forward payload"⟩)
    ∧ (∀ (tx : Nat) (r : BurnRecord), r.amount = none →
      JettonWalletDetector.parse_burn_impl tx (some r) =
        .error ⟨.EVENT_PARSE_ERROR, "Failed to unpack burn amount"⟩)
    ∧ (∀ (tx : Nat) (r : BurnRecord) (a : Int) (e : Status),
      r.amount = some a → r.response_destination = .error e →
      JettonWalletDetector.parse_burn_impl tx (some r) = .error e)
    ∧ (∀ (tx : Nat) (acc : String) (r : TransferNftRecord),
      NFTItemDetector.parse_transfer_impl tx acc none (some r) =
        .error ⟨.EVENT_PARSE_ERROR, "Failed to fetch NFT old owner address"⟩)
    ∧ (∀ (tx : Nat) (acc oldOwner : String) (r : TransferNftRecord) (e : Status),
      r.new_owner = .error e →
      NFTItemDetector.parse_transfer_impl tx acc (some oldOwner) (some r) = .error e)
    ∧ (∀ (tx : Nat) (acc oldOwner : String) (r : TransferNftRecord) (no2 : String) (e : Status),
      r.new_owner = .ok no2 → r.response_destination = .error e →
      NFTItemDetector.parse_transfer_impl tx acc (some oldOwner) (some r) = .error e) := by
  refine ⟨?_, ?_, ?_, ?_, ?_, ?_, ?_, ?_, ?_, ?_⟩
  · intro tx r h1
    simp [JettonWalletDetector.parse_transfer_impl, h1]
  · intro tx r a e h1 h2
    simp [JettonWalletDetector.parse_transfer_impl, h1, h2]
  · intro tx r a d e h1 h2 h3
    simp [JettonWalletDetector.parse_transfer_impl, h1, h2, h3]
  · intro tx r a d rd h1 h2 h3 h4
    simp [JettonWalletDetector.parse_transfer_impl, h1, h2, h3, h4]
  · intro tx r a d rd cp h1 h2 h3 h4 h5
    simp [JettonWalletDetector.parse_transfer_impl, h1, h2, h3, h4, h5]
  · intro tx r h1
    simp [JettonWalletDetector.parse_burn_impl, h1]
  · intro tx r a e h1 h2
    simp [JettonWalletDetector.parse_burn_impl, h1, h2]
  · intro tx acc r
    simp [NFTItemDetector.parse_transfer_impl]
  · intro tx acc oldOwner r e h1
    simp [NFTItemDetector.parse_transfer_impl, h1]
  · intro tx acc oldOwner r no2 e h1 h2
    simp [NFTItemDetector.parse_transfer_impl, h1, h2]

/-- C5 counterexample: a transfer body whose destination slice fails the
    address decoder makes the parse fail with the decoder's own status
    (code genericError here), not with EVENT_PARSE_ERROR as the claim
    states for every malformed address. -/
theorem c5_counterexample :
    JettonWalletDetector.parse_transfer_impl 1
      (some { query_id := 0, amount := some 5,
              destination := .error ⟨.genericError, "Failed to unpack MsgAddressInt"⟩,
              response_destination := .ok "0:aa",
              custom_payload_fetch := some none, forward_ton_amount := some 0,
              forward_payload_fetch := some none }) =
      .error ⟨.genericError, "Failed to unpack MsgAddressInt"⟩
    ∧ ErrorCode.genericError ≠ ErrorCode.EVENT_PARSE_ERROR :=
  ⟨rfl, by decide⟩

theorem c5_witness :
    JettonWalletDetector.parse_transfer_impl 2
      (some { query_id := 0, amount := none,
              destination := .ok "0:aa", response_destination := .ok "0:bb",
              custom_payload_fetch := some none, forward_ton_amount := some 0,
              forward_payload_fetch := some none }) =
      .error ⟨.EVENT_PARSE_ERROR, "Failed to unpack transfer amount"⟩ :=
  c5_event_parse_failures.1 2
    { query_id := 0, amount := none,
      destination := .ok "0:aa", response_destination := .ok "0:bb",
      custom_payload_fetch := some none, forward_ton_amount := some 0,
      forward_payload_fetch := some none } rfl

/-! # Claim C8 -/

/-- C8 (amended): after every successful getter-path detection, the
    detector calls add_to_cache at the entity's own raw address — an
    entity-cache emplace plus an upsert to the external writer — and emits
    no interface-cache write: the verdict (code_hash, tag) → true is never
    stored, since the detectors contain no call to
    InterfaceManager::set_interface (see the counterexample). -/
theorem c8_write_through :
    (∀ (a : StdAddress) (cc dc : Cell) (lt : Nat) (res : GetMethodResult)
       (d : JettonMasterData) (effs : List DetectorEffect),
      JettonMasterDetector.detect_impl a cc dc lt res = (.ok d, effs) →
      d.address = to_raw_address a
        ∧ effs = CacheManager.add_to_cache (to_raw_address a)
        ∧ containsInterfaceWrite effs = false)
    ∧ (∀ (a : StdAddress) (cc dc : Cell) (lt : Nat) (res : GetMethodResult)
       (d : NFTCollectionData) (effs : List DetectorEffect),
      NFTCollectionDetector.detect_impl a cc dc lt res = (.ok d, effs) →
      d.address = to_raw_address a
        ∧ effs = CacheManager.add_to_cache (to_raw_address a)
        ∧ containsInterfaceWrite effs = false) := by
  constructor
  · intro a cc dc lt res d effs h
    unfold JettonMasterDetector.detect_impl at h
    split at h
    · simp at h
    · split at h
      · rename_i totalSupply mintableInt adminRaw contentCell walletCodeCell
        split at h
        · simp at h
        · rw [Prod.mk.injEq] at h
          obtain ⟨h1, h2⟩ := h
          have hd := Except.ok.inj h1
          subst hd
          exact ⟨rfl, h2.symm, by rw [← h2]; rfl⟩
      · simp at h
  · intro a cc dc lt res d effs h
    unfold NFTCollectionDetector.detect_impl at h
    split at h
    · simp at h
    · split at h
      · rename_i nextItemIndex contentCell ownerRaw
        split at h
        · simp at h
        · rw [Prod.mk.injEq] at h
          obtain ⟨h1, h2⟩ := h
          have hd := Except.ok.inj h1
          subst hd
          exact ⟨rfl, h2.symm, by rw [← h2]; rfl⟩
      · simp at h

/-- C8 counterexample: a concrete successful jetton-master detection whose
    effect list is exactly the add_to_cache pair and contains no
    interface-cache verdict write, refuting the claim that the verdict
    (code_hash, tag) → true is stored after success. -/
theorem c8_counterexample :
    JettonMasterDetector.detect_impl ⟨0, "aa"⟩ ⟨1, "cb", .ok []⟩ ⟨2, "db", .ok []⟩ 10
      ⟨true, [.t_int 100, .t_int 1, .t_slice (.ok "0:bb"), .t_cell ⟨3, "", .ok []⟩,
              .t_cell ⟨4, "", .ok []⟩]⟩ =
      (.ok { address := "0:aa", total_supply := 100, mintable := true,
             admin_address := "0:bb", jetton_content := [],
             jetton_wallet_code_hash := 4, data_hash := 2, code_hash := 0,
             last_transaction_lt := 10, code_boc := "cb", data_boc := "db" },
       [.entityCacheEmplace "0:aa", .upsertEntity "0:aa"])
    ∧ containsInterfaceWrite [.entityCacheEmplace "0:aa", .upsertEntity "0:aa"] = false :=
  ⟨rfl, rfl⟩

theorem c8_witness :
    ({ address := "0:aa", total_supply := 100, mintable := true,
       admin_address := "0:bb", jetton_content := [],
       jetton_wallet_code_hash := 4, data_hash := 2, code_hash := 0,
       last_transaction_lt := 10, code_boc := "cb", data_boc := "db" } :
        JettonMasterData).address = to_raw_address ⟨0, "aa"⟩
    ∧ ([.entityCacheEmplace "0:aa", .upsertEntity "0:aa"] : List DetectorEffect) =
        CacheManager.add_to_cache (to_raw_address ⟨0, "aa"⟩)
    ∧ containsInterfaceWrite [.entityCacheEmplace "0:aa", .upsertEntity "0:aa"] = false :=
  c8_write_through.1 ⟨0, "aa"⟩ ⟨1, "cb", .ok []⟩ ⟨2, "db", .ok []⟩ 10
    ⟨true, [.t_int 100, .t_int 1, .t_slice (.ok "0:bb"), .t_cell ⟨3, "", .ok []⟩,
            .t_cell ⟨4, "", .ok []⟩]⟩
    { address := "0:aa", total_supply := 100, mintable := true,
      admin_address := "0:bb", jetton_content := [],
      jetton_wallet_code_hash := 4, data_hash := 2, code_hash := 0,
      last_transaction_lt := 10, code_boc := "cb", data_boc := "db" }
    [.entityCacheEmplace "0:aa", .upsertEntity "0:aa"] rfl

/-! # Claim C4 -/

/-- Helper: a successful verify_belonging_to_collection run means the
    get_nft_address_by_index call succeeded with a one-slice stack decoding
    to exactly the item's own address. -/
theorem verify_collection_ok_shape (item : NFTItemData) (coll : NFTCollectionData)
    (res : GetMethodResult) :
    NFTItemDetector.verify_belonging_to_collection item coll res = .ok () →
    res.success = true ∧ res.stack = [.t_slice (.ok item.address)] := by
  obtain ⟨succ, stack⟩ := res
  intro h
  cases succ with
  | false => simp [NFTItemDetector.verify_belonging_to_collection] at h
  | true =>
    refine ⟨rfl, ?_⟩
    match stack with
    | [] => simp [NFTItemDetector.verify_belonging_to_collection] at h
    | e :: e2 :: rest => simp [NFTItemDetector.verify_belonging_to_collection] at h
    | [.t_int v] => simp [NFTItemDetector.verify_belonging_to_collection] at h
    | [.t_cell c] => simp [NFTItemDetector.verify_belonging_to_collection] at h
    | [.t_null] => simp [NFTItemDetector.verify_belonging_to_collection] at h
    | [.t_slice (.error e)] => simp [NFTItemDetector.verify_belonging_to_collection] at h
    | [.t_slice (.ok nftAddress)] =>
      by_cases heq : nftAddress = item.address
      · subst heq; rfl
      · simp [NFTItemDetector.verify_belonging_to_collection, heq] at h

/-- C4: for every NFTItem that detect_impl accepts with a non-null
    collection address, the collection's get_nft_address_by_index run
    succeeded and returned exactly the item's own address; and when the
    referenced collection is neither cached nor in the database
    (NOT_FOUND), detect_impl fails with the distinguishable error
    "Collection was not indexed yet" instead of returning an entity. -/
theorem c4_nft_item_collection_verification :
    (∀ (a : StdAddress) (cc dc : Cell) (lt : Nat) (res : GetMethodResult)
       (pca : Except Status StdAddress) (cRes : Except Status NFTCollectionData)
       (ctRes : Except Status TokenData) (vRes : GetMethodResult) (d : NFTItemData),
      (NFTItemDetector.detect_impl a cc dc lt res pca cRes ctRes vRes).1 = .ok d →
      d.collection_address ≠ "addr_none" →
      vRes.success = true ∧ vRes.stack = [.t_slice (.ok d.address)])
    ∧ (∀ (a : StdAddress) (cc dc : Cell) (lt : Nat)
       (i0 ix : Int) (ca oa : String) (ic : Cell)
       (pc : StdAddress) (e : Status)
       (ctRes : Except Status TokenData) (vRes : GetMethodResult),
      ca ≠ "addr_none" → e.code = .NOT_FOUND_ERROR →
      (NFTItemDetector.detect_impl a cc dc lt
        ⟨true, [.t_int i0, .t_int ix, .t_slice (.ok ca), .t_slice (.ok oa), .t_cell ic]⟩
        (.ok pc) (.error e) ctRes vRes).1 =
        .error ⟨.SMC_INTERFACE_PARSE_ERROR, "Collection was not indexed yet"⟩) := by
  constructor
  · intro a cc dc lt res pca cRes ctRes vRes d h hne
    unfold NFTItemDetector.detect_impl at h
    split at h
    · simp at h
    · split at h
      · rename_i initInt index collRaw ownerRaw indContent
        split at h
        · simp at h
        · rename_i collectionAddress hcollRaw
          split at h
          · simp at h
          · rename_i ownerAddress hownerRaw
            split at h
            · rename_i hcoll
              simp at h
              subst h
              exact absurd hcoll hne
            · rename_i hcoll
              split at h
              · simp at h
              · split at h
                · split at h <;> simp at h
                · split at h
                  · dsimp only at h
                    split at h
                    · simp at h
                    · rename_i hverify
                      simp at h
                      subst h
                      exact verify_collection_ok_shape _ _ vRes hverify
                  · dsimp only at h
                    split at h
                    · simp at h
                    · rename_i hverify
                      simp at h
                      subst h
                      exact verify_collection_ok_shape _ _ vRes hverify
      · simp at h
  · intro a cc dc lt i0 ix ca oa ic pc e ctRes vRes hca hcode
    simp [NFTItemDetector.detect_impl, hca, hcode]

theorem c4_witness :
    (NFTItemDetector.detect_impl ⟨0, "11"⟩ ⟨1, "", .ok []⟩ ⟨2, "", .ok []⟩ 9
      ⟨true, [.t_int 1, .t_int 0, .t_slice (.ok "0:22"), .t_slice (.ok "0:33"),
              .t_cell ⟨5, "", .ok []⟩]⟩
      (.ok ⟨0, "22"⟩) (.error ⟨.NOT_FOUND_ERROR, "not in cache or db"⟩)
      (.ok []) ⟨true, []⟩).1 =
      .error ⟨.SMC_INTERFACE_PARSE_ERROR, "Collection was not indexed yet"⟩ :=
  c4_nft_item_collection_verification.2 ⟨0, "11"⟩ ⟨1, "", .ok []⟩ ⟨2, "", .ok []⟩ 9
    1 0 "0:22" "0:33" ⟨5, "", .ok []⟩ ⟨0, "22"⟩ ⟨.NOT_FOUND_ERROR, "not in cache or db"⟩
    (.ok []) ⟨true, []⟩ (by decide) rfl

/-! # Claim C6 -/

theorem mapLookup_mapInsert (m : TraceIdMap) (k v h : Nat) :
    mapLookup (mapInsert m k v) h = if k = h then some v else mapLookup m h := by
  induction m with
  | nil => simp [mapInsert, mapLookup]
  | cons e rest ih =>
    by_cases hek : e.1 = k
    · simp only [mapInsert, if_pos hek, mapLookup]
      by_cases hkh : k = h
      · simp [hkh]
      · rw [if_neg hkh, if_neg hkh, if_neg (by rw [hek]; exact hkh)]
    · simp only [mapInsert, if_neg hek, mapLookup]
      by_cases heh : e.1 = h
      · rw [if_pos heh, if_pos heh, if_neg (by intro hk; exact hek (by rw [hk, heh]))]
      · rw [if_neg heh, if_neg heh, ih]

theorem mapLookup_insertMany (outs : List Nat) (m : TraceIdMap) (v h : Nat) :
    mapLookup (outs.foldl (fun m o => mapInsert m o v) m) h =
      if h ∈ outs then some v else mapLookup m h := by
  induction outs generalizing m with
  | nil => simp
  | cons o os ih =>
    simp only [List.foldl_cons]
    rw [ih (mapInsert m o v)]
    by_cases hmem : h ∈ os
    · simp [hmem]
    · by_cases hoh : o = h
      · simp [hoh, hmem, mapLookup_mapInsert]
      · have hho : ¬h = o := fun he => hoh he.symm
        simp [hmem, hho, hoh, mapLookup_mapInsert]

theorem nodup_flatMap_unique_owner {α β : Type} [DecidableEq β] (l : List α) (f : α → List β)
    (hnd : (l.flatMap f).Nodup) (a b : α) (ha : a ∈ l) (hb : b ∈ l) (o : β)
    (hoa : o ∈ f a) (hob : o ∈ f b) : a = b := by
  induction l with
  | nil => cases ha
  | cons x xs ih =>
    rw [List.flatMap_cons] at hnd
    have hdisj := List.disjoint_of_nodup_append hnd
    have hnd2 := hnd.of_append_right
    cases List.mem_cons.mp ha with
    | inl hax =>
      cases List.mem_cons.mp hb with
      | inl hbx => rw [hax, hbx]
      | inr hbxs =>
        exfalso
        exact hdisj (hax ▸ hoa) (List.mem_flatMap.mpr ⟨b, hbxs, hob⟩)
    | inr haxs =>
      cases List.mem_cons.mp hb with
      | inl hbx =>
        exfalso
        exact hdisj (hbx ▸ hob) (List.mem_flatMap.mpr ⟨a, haxs, hoa⟩)
      | inr hbxs => exact ih hnd2 haxs hbxs

theorem find?_eq_some_of_unique {α : Type} (l : List α) (p : α → Bool) (x : α)
    (hx : x ∈ l) (hpx : p x = true) (huniq : ∀ y ∈ l, p y = true → y = x) :
    l.find? p = some x := by
  induction l with
  | nil => cases hx
  | cons e rest ih =>
    by_cases hpe : p e = true
    · have hex : e = x := huniq e (List.mem_cons_self _ _) hpe
      simp [List.find?_cons, hpe, hex, hpx]
    · have hpe2 : p e = false := by
        cases hb : p e
        · rfl
        · exact absurd hb hpe
      have hxrest : x ∈ rest := by
        rcases List.mem_cons.mp hx with hxe | hmem
        · exfalso
          rw [hxe] at hpx
          rw [hpx] at hpe2
          exact Bool.noConfusion hpe2
        · exact hmem
      rw [List.find?_cons, hpe2]
      exact ih hxrest (fun y hy hpy => huniq y (List.mem_cons_of_mem _ hy) hpy)


theorem omLookup_append_single (m : List (Nat × TransactionInfo)) (k2 k : Nat)
    (tx : TransactionInfo) :
    omLookup (m ++ [(k2, tx)]) k =
      match omLookup m k with
      | some q => some q
      | none => if k2 = k then some tx else none := by
  induction m with
  | nil => simp [omLookup]
  | cons e rest ih =>
    by_cases hek : e.1 = k
    · simp [omLookup, hek]
    · simp only [List.cons_append, omLookup, if_neg hek]
      exact ih

theorem omInsert_values (m : List (Nat × TransactionInfo)) (k2 : Nat)
    (tx : TransactionInfo) (P : TransactionInfo → Prop)
    (hm : ∀ k p, omLookup m k = some p → P p) (htx : P tx) :
    ∀ k p, omLookup (omInsert m k2 tx) k = some p → P p := by
  intro k p h
  unfold omInsert at h
  split at h
  · exact hm k p h
  · rw [omLookup_append_single] at h
    cases hq : omLookup m k with
    | some q =>
      rw [hq] at h
      simp only [] at h
      have := Option.some.inj h
      subst this
      exact hm k q hq
    | none =>
      rw [hq] at h
      simp only [] at h
      by_cases hk : k2 = k
      · rw [if_pos hk] at h
        have := Option.some.inj h
        subst this
        exact htx
      · rw [if_neg hk] at h
        exact absurd h (by simp)

theorem insertMany_values (outs : List Nat) (tx : TransactionInfo)
    (P : TransactionInfo → Prop) (htx : P tx) :
    ∀ (m0 : List (Nat × TransactionInfo)), (∀ k p, omLookup m0 k = some p → P p) →
    ∀ k p, omLookup (outs.foldl (fun m o => omInsert m o tx) m0) k = some p → P p := by
  induction outs with
  | nil => intro m0 hm0; exact hm0
  | cons o os ih =>
    intro m0 hm0
    simp only [List.foldl_cons]
    exact ih (omInsert m0 o tx) (omInsert_values m0 o tx P hm0 htx)

theorem build_values (txs : List TransactionInfo) (P : TransactionInfo → Prop)
    (hall : ∀ tx ∈ txs, P tx) :
    ∀ k p, omLookup (buildTxsByOutMsgHash txs) k = some p → P p := by
  suffices hgen : ∀ (l : List TransactionInfo) (m0 : List (Nat × TransactionInfo)),
      (∀ tx ∈ l, P tx) → (∀ k p, omLookup m0 k = some p → P p) →
      ∀ k p, omLookup
        (l.foldl (fun m tx => tx.out_msgs.foldl (fun m o => omInsert m o tx) m) m0) k = some p →
        P p by
    exact hgen txs [] hall (by intro k p h; simp [omLookup] at h)
  intro l
  induction l with
  | nil => intro m0 _ hm0; exact hm0
  | cons tx rest ih =>
    intro m0 hall2 hm0
    simp only [List.foldl_cons]
    exact ih _ (fun t ht => hall2 t (List.mem_cons_of_mem _ ht))
      (insertMany_values tx.out_msgs tx P (hall2 tx (List.mem_cons_self _ _)) m0 hm0)


theorem assign_eq (frozen : List (Nat × TransactionInfo))
    (hfrozen : ∀ k p, omLookup frozen k = some p → p.initial_msg_hash = none)
    (procs : List TransactionInfo) (ib ib0 : TraceIdMap) (hinv : IbInv procs ib ib0)
    (tx : TransactionInfo) :
    assignInitialCode frozen ib tx = specAssignInitial procs ib tx := by
  by_cases hf : tx.is_first
  · simp [assignInitialCode, specAssignInitial, hf]
  · have hcode : assignInitialCode frozen ib tx = mapLookup ib tx.in_msg_hash := by
      simp only [assignInitialCode, if_neg hf]
      cases homl : omLookup frozen tx.in_msg_hash with
      | some p =>
        have hpnone := hfrozen _ p homl
        show (match p.initial_msg_hash with
          | some v => some v
          | none => match mapLookup ib tx.in_msg_hash with
            | some v => some v
            | none => none) = mapLookup ib tx.in_msg_hash
        rw [hpnone]
        cases mapLookup ib tx.in_msg_hash <;> rfl
      | none =>
        show (match mapLookup ib tx.in_msg_hash with
          | some v => some v
          | none => none) = mapLookup ib tx.in_msg_hash
        cases mapLookup ib tx.in_msg_hash <;> rfl
    rw [hcode]
    simp only [specAssignInitial, if_neg hf]
    cases hfind : procs.find? (ownerPred tx.in_msg_hash) with
    | some p => rw [hinv tx.in_msg_hash, hfind]
    | none => rw [hinv tx.in_msg_hash, hfind]

theorem loop_equiv (frozen : List (Nat × TransactionInfo))
    (hfrozen : ∀ k p, omLookup frozen k = some p → p.initial_msg_hash = none) :
    ∀ (rem procs : List TransactionInfo) (ib ib0 : TraceIdMap),
    ((procs.flatMap fun p => p.out_msgs) ++ rem.flatMap fun p => p.out_msgs).Nodup →
    IbInv procs ib ib0 →
    (rem.foldl (processStepCode frozen) (procs, ib) = rem.foldl processStepSpec (procs, ib))
    ∧ IbInv (rem.foldl processStepSpec (procs, ib)).1 (rem.foldl processStepSpec (procs, ib)).2 ib0
    ∧ ((rem.foldl processStepSpec (procs, ib)).1.flatMap fun p => p.out_msgs).Nodup := by
  intro rem
  induction rem with
  | nil =>
    intro procs ib ib0 hnd hinv
    exact ⟨rfl, hinv, List.Nodup.of_append_left hnd⟩
  | cons tx rest ih =>
    intro procs ib ib0 hnd hinv
    have hstep : processStepCode frozen (procs, ib) tx = processStepSpec (procs, ib) tx := by
      simp only [processStepCode, processStepSpec,
        assign_eq frozen hfrozen procs ib ib0 hinv tx]
    have hnd' : (((procs ++ [{ tx with initial_msg_hash := specAssignInitial procs ib tx }]).flatMap
          fun p => p.out_msgs) ++ rest.flatMap fun p => p.out_msgs).Nodup := by
      rw [List.flatMap_append]
      simp only [List.flatMap_cons, List.flatMap_nil, List.append_nil]
      rw [List.append_assoc]
      rw [List.flatMap_cons] at hnd
      exact hnd
    have hinv' : IbInv (procs ++ [{ tx with initial_msg_hash := specAssignInitial procs ib tx }])
        (recordOutMsgs ib tx.out_msgs (specAssignInitial procs ib tx)) ib0 := by
      intro h
      cases haa : specAssignInitial procs ib tx with
      | none =>
        simp only [recordOutMsgs]
        rw [List.find?_append]
        have hfx : List.find? (ownerPred h)
            [{ tx with initial_msg_hash := none }] = none := by
          simp [List.find?, ownerPred]
        rw [hfx, Option.or_none]
        exact hinv h
      | some v =>
        simp only [recordOutMsgs]
        rw [mapLookup_insertMany]
        by_cases hmem : h ∈ tx.out_msgs
        · rw [if_pos hmem]
          have hnone : procs.find? (ownerPred h) = none := by
            cases hq : procs.find? (ownerPred h) with
            | none => rfl
            | some p =>
              exfalso
              have hp := List.find?_some hq
              have hpm := List.mem_of_find?_eq_some hq
              have hpo : h ∈ p.out_msgs := by
                rw [ownerPred, Bool.and_eq_true] at hp
                exact of_decide_eq_true hp.2
              have hdisj := List.disjoint_of_nodup_append hnd
              exact hdisj (List.mem_flatMap.mpr ⟨p, hpm, hpo⟩)
                (by rw [List.flatMap_cons]; exact List.mem_append_left _ hmem)
          rw [List.find?_append, hnone]
          have hsome : List.find? (ownerPred h)
              [{ tx with initial_msg_hash := some v }] =
              some { tx with initial_msg_hash := some v } := by
            simp [List.find?, ownerPred, hmem]
          rw [hsome]
          rfl
        · rw [if_neg hmem]
          rw [List.find?_append]
          have hnone2 : List.find? (ownerPred h)
              [{ tx with initial_msg_hash := some v }] = none := by
            simp [List.find?, ownerPred, hmem]
          rw [hnone2, Option.or_none]
          exact hinv h
    have hrec := ih (procs ++ [{ tx with initial_msg_hash := specAssignInitial procs ib tx }])
      (recordOutMsgs ib tx.out_msgs (specAssignInitial procs ib tx)) ib0 hnd' hinv'
    refine ⟨?_, ?_, ?_⟩
    · simp only [List.foldl_cons, hstep]
      exact hrec.1
    · simp only [List.foldl_cons]
      exact hrec.2.1
    · simp only [List.foldl_cons]
      exact hrec.2.2

/-- C6: on an lt-ordered transaction list whose inputs carry no
    initial_msg_hash (as BlockParser produces them) and whose out-message
    hashes are globally distinct, the assignment loop of process_txs
    computes exactly the claimed cascade — external-in transactions get
    their own in-message hash, others inherit from the previously seen
    transaction owning their in-message (the code realizes this branch
    through the in-loop interblock recordings, since the frozen
    txs_by_out_msg_hash copies never carry an assignment), others fall back
    to the interblock map carried from previous blocks, and the rest are
    skipped — and after each successful assignment every out-message hash
    of the transaction maps to its initial_msg_hash in
    interblock_trace_ids. -/
theorem c6_initial_msg_hash_cascade :
    ∀ (txs : List TransactionInfo) (ib0 : TraceIdMap),
    (∀ t ∈ txs, t.initial_msg_hash = none) →
    (txs.flatMap fun p => p.out_msgs).Nodup →
    process_txs_sorted txs ib0 = specProcessTxs txs ib0
    ∧ (∀ t2 ∈ (process_txs_sorted txs ib0).1, ∀ v, t2.initial_msg_hash = some v →
        ∀ o ∈ t2.out_msgs, mapLookup (process_txs_sorted txs ib0).2 o = some v) := by
  intro txs ib0 hnone hnd
  have hfrozen : ∀ k p, omLookup (buildTxsByOutMsgHash txs) k = some p →
      p.initial_msg_hash = none :=
    build_values txs (fun p => p.initial_msg_hash = none) hnone
  have hbase : IbInv [] ib0 ib0 := by intro h; rfl
  have hnd0 : ((([] : List TransactionInfo).flatMap fun p => p.out_msgs) ++
      txs.flatMap fun p => p.out_msgs).Nodup := by simpa using hnd
  have hmain := loop_equiv (buildTxsByOutMsgHash txs) hfrozen txs [] ib0 ib0 hnd0 hbase
  have heq : process_txs_sorted txs ib0 = specProcessTxs txs ib0 := hmain.1
  refine ⟨heq, ?_⟩
  intro t2 ht2 v hv o ho
  rw [heq] at ht2 ⊢
  have hinvF : IbInv (specProcessTxs txs ib0).1 (specProcessTxs txs ib0).2 ib0 := hmain.2.1
  have hndF : ((specProcessTxs txs ib0).1.flatMap fun p => p.out_msgs).Nodup := hmain.2.2
  have hfind : (specProcessTxs txs ib0).1.find? (ownerPred o) = some t2 := by
    apply find?_eq_some_of_unique
    · exact ht2
    · simp [ownerPred, hv, ho]
    · intro y hy hpy
      have hyo : o ∈ y.out_msgs := by
        rw [ownerPred, Bool.and_eq_true] at hpy
        exact of_decide_eq_true hpy.2
      exact nodup_flatMap_unique_owner _ _ hndF y t2 hy ht2 o hyo ho
  have h2 : mapLookup (specProcessTxs txs ib0).2 o = t2.initial_msg_hash := by
    rw [hinvF o, hfind]
  rw [hv] at h2
  exact h2



theorem c6_witness :
    process_txs_sorted
      [{ hash := 1, lt := 10, in_msg_hash := 100, is_first := true, out_msgs := [200],
         initial_msg_hash := none },
       { hash := 2, lt := 20, in_msg_hash := 200, is_first := false, out_msgs := [300],
         initial_msg_hash := none },
       { hash := 3, lt := 30, in_msg_hash := 555, is_first := false, out_msgs := [],
         initial_msg_hash := none }] [(555, 777)] =
    specProcessTxs
      [{ hash := 1, lt := 10, in_msg_hash := 100, is_first := true, out_msgs := [200],
         initial_msg_hash := none },
       { hash := 2, lt := 20, in_msg_hash := 200, is_first := false, out_msgs := [300],
         initial_msg_hash := none },
       { hash := 3, lt := 30, in_msg_hash := 555, is_first := false, out_msgs := [],
         initial_msg_hash := none }] [(555, 777)] :=
  (c6_initial_msg_hash_cascade
    [{ hash := 1, lt := 10, in_msg_hash := 100, is_first := true, out_msgs := [200],
       initial_msg_hash := none },
     { hash := 2, lt := 20, in_msg_hash := 200, is_first := false, out_msgs := [300],
       initial_msg_hash := none },
     { hash := 3, lt := 30, in_msg_hash := 555, is_first := false, out_msgs := [],
       initial_msg_hash := none }] [(555, 777)] (by decide) (by decide)).1

/-! # Claim C9 -/

theorem assocGet_set_self {κ ν : Type} [DecidableEq κ] (l : List (κ × ν)) (k : κ) (v : ν) :
    assocGet (assocSet l k v) k = some v := by
  induction l with
  | nil => simp [assocSet, assocGet]
  | cons e rest ih =>
    by_cases hek : e.1 = k
    · simp [assocSet, hek, assocGet]
    · simp only [assocSet, if_neg hek, assocGet, if_neg hek]
      exact ih

theorem assocGet_set_ne {κ ν : Type} [DecidableEq κ] (l : List (κ × ν)) (k k2 : κ) (v : ν)
    (hne : ¬k = k2) : assocGet (assocSet l k v) k2 = assocGet l k2 := by
  induction l with
  | nil => simp [assocSet, assocGet, hne]
  | cons e rest ih =>
    by_cases hek : e.1 = k
    · simp only [assocSet, if_pos hek, assocGet, if_neg hne]
      rw [if_neg (by rw [hek]; exact hne)]
    · simp only [assocSet, if_neg hek, assocGet]
      by_cases hek2 : e.1 = k2
      · rw [if_pos hek2, if_pos hek2]
      · rw [if_neg hek2, if_neg hek2]
        exact ih

theorem assocGet_filter_ne {κ ν : Type} [DecidableEq κ] (l : List (κ × ν)) (k k2 : κ) :
    assocGet (l.filter (fun e => decide (e.1 ≠ k))) k2 =
      if k2 = k then none else assocGet l k2 := by
  induction l with
  | nil => simp [assocGet]
  | cons e rest ih =>
    rw [List.filter_cons]
    by_cases hek : e.1 = k
    · rw [if_neg (by simp [hek]), ih]
      by_cases hk2 : k2 = k
      · simp [hk2]
      · have hne : ¬e.1 = k2 := fun hc => hk2 (hc.symm.trans hek)
        simp [assocGet, hk2, hne]
    · rw [if_pos (by simp [hek])]
      by_cases he2 : e.1 = k2
      · have hk2 : ¬k2 = k := fun hc => hek (he2.trans hc)
        simp [assocGet, he2, hk2]
      · have ih2 : assocGet (List.filter (fun e => !decide (e.1 = k)) rest) k2 =
            if k2 = k then none else assocGet rest k2 := by
          simpa [decide_not] using ih
        by_cases hk2 : k2 = k
        · subst hk2
          simp [assocGet, he2, hek, ih2]
        · simp [assocGet, he2, hk2, ih2]

theorem txFields_exec_hdels (keys : List Nat) (tid : Nat) :
    ∀ (s : KvState) (k : Nat),
      assocGet (execCmds s (keys.map (RedisCmd.hdel tid))).txFields (tid, k) =
        if k ∈ keys then none else assocGet s.txFields (tid, k) := by
  induction keys with
  | nil =>
    intro s k
    show assocGet s.txFields (tid, k) =
      if k ∈ ([] : List Nat) then none else assocGet s.txFields (tid, k)
    simp
  | cons k0 ks ih =>
    intro s k
    simp only [List.map_cons, execCmds, List.foldl_cons]
    rw [show List.foldl applyCmd (applyCmd s (RedisCmd.hdel tid k0)) (ks.map (RedisCmd.hdel tid)) =
      execCmds (applyCmd s (RedisCmd.hdel tid k0)) (ks.map (RedisCmd.hdel tid)) from rfl]
    rw [ih]
    by_cases hmem : k ∈ ks
    · simp [hmem]
    · rw [if_neg hmem]
      show _ = if k ∈ k0 :: ks then none else assocGet s.txFields (tid, k)
      simp only [applyCmd]
      rw [assocGet_filter_ne]
      by_cases hk0 : k = k0
      · simp [hk0, Prod.ext_iff]
      · have h1 : ¬((tid, k) = (tid, k0)) := by
          intro hc
          exact hk0 (congrArg Prod.snd hc)
        rw [if_neg h1, if_neg (by simp [List.mem_cons, hk0, hmem])]

theorem txFields_exec_zrems (prs : List (String × (Nat × Nat))) :
    ∀ (s : KvState),
      (execCmds s (prs.map (fun p => RedisCmd.zrem p.1 p.2))).txFields = s.txFields := by
  induction prs with
  | nil => intro s; rfl
  | cons p ps ih =>
    intro s
    simp only [List.map_cons, execCmds, List.foldl_cons]
    exact ih (applyCmd s (RedisCmd.zrem p.1 p.2))

theorem txFields_exec_inserts (flat : List FlatNode) (tid : Nat) :
    ∀ (s : KvState) (k : Nat),
      assocGet (execCmds s (flat.flatMap (fun n =>
        [RedisCmd.hset tid n.tx.inMsg ⟨n.tx, n.emulated⟩,
         RedisCmd.zadd n.tx.account (tid, n.tx.inMsg) n.tx.lt]))).txFields (tid, k) =
      match flat.reverse.find? (fun n => n.tx.inMsg == k) with
      | some n => some ⟨n.tx, n.emulated⟩
      | none => assocGet s.txFields (tid, k) := by
  induction flat with
  | nil => intro s k; rfl
  | cons n ns ih =>
    intro s k
    simp only [List.flatMap_cons, execCmds, List.foldl_cons, List.cons_append, List.nil_append]
    rw [show List.foldl applyCmd
        (applyCmd (applyCmd s (RedisCmd.hset tid n.tx.inMsg ⟨n.tx, n.emulated⟩))
          (RedisCmd.zadd n.tx.account (tid, n.tx.inMsg) n.tx.lt))
        (ns.flatMap (fun n => [RedisCmd.hset tid n.tx.inMsg ⟨n.tx, n.emulated⟩,
          RedisCmd.zadd n.tx.account (tid, n.tx.inMsg) n.tx.lt])) =
      execCmds (applyCmd (applyCmd s (RedisCmd.hset tid n.tx.inMsg ⟨n.tx, n.emulated⟩))
          (RedisCmd.zadd n.tx.account (tid, n.tx.inMsg) n.tx.lt))
        (ns.flatMap (fun n => [RedisCmd.hset tid n.tx.inMsg ⟨n.tx, n.emulated⟩,
          RedisCmd.zadd n.tx.account (tid, n.tx.inMsg) n.tx.lt])) from rfl]
    rw [ih]
    rw [List.reverse_cons, List.find?_append]
    cases hfind : ns.reverse.find? (fun n => n.tx.inMsg == k) with
    | some m => rfl
    | none =>
      simp only [Option.none_or]
      by_cases hk : n.tx.inMsg = k
      · rw [List.find?_cons]
        have hb : (n.tx.inMsg == k) = true := by simp [hk]
        rw [hb]
        show assocGet (assocSet s.txFields (tid, n.tx.inMsg) ⟨n.tx, n.emulated⟩) (tid, k) =
          some ⟨n.tx, n.emulated⟩
        rw [hk]
        exact assocGet_set_self _ _ _
      · rw [List.find?_cons]
        have hb : (n.tx.inMsg == k) = false := by simp [hk]
        rw [hb]
        show assocGet (assocSet s.txFields (tid, n.tx.inMsg) ⟨n.tx, n.emulated⟩) (tid, k) =
          assocGet s.txFields (tid, k)
        exact assocGet_set_ne _ _ _ _ (fun hc => hk (congrArg Prod.snd hc))

theorem txFields_exec_ifaces (prs : List (String × List String)) (tid : Nat) :
    ∀ (s : KvState),
      (execCmds s (prs.map (fun p => RedisCmd.hsetIfaces tid p.1 p.2))).txFields = s.txFields := by
  induction prs with
  | nil => intro s; rfl
  | cons p ps ih =>
    intro s
    simp only [List.map_cons, execCmds, List.foldl_cons]
    exact ih (applyCmd s (RedisCmd.hsetIfaces tid p.1 p.2))

theorem published_exec (l : List RedisCmd) :
    ∀ (s : KvState),
      (execCmds s l).published = s.published ++ l.filterMap (fun c =>
        match c with
        | .publish ch p => some (ch, p)
        | _ => none) := by
  induction l with
  | nil => intro s; simp [execCmds]
  | cons c cs ih =>
    intro s
    simp only [execCmds, List.foldl_cons]
    rw [show List.foldl applyCmd (applyCmd s c) cs = execCmds (applyCmd s c) cs from rfl]
    rw [ih]
    cases c <;> simp [applyCmd, List.filterMap_cons]

theorem find?_reverse_of_nodup_keys (flat : List FlatNode) (k : Nat)
    (hnd : (flat.map (fun n => n.tx.inMsg)).Nodup) :
    flat.reverse.find? (fun n => n.tx.inMsg == k) = flat.find? (fun n => n.tx.inMsg == k) := by
  cases hq : flat.find? (fun n => n.tx.inMsg == k) with
  | some n =>
    have hpx := @List.find?_some _ _ _ _ hq
    refine find?_eq_some_of_unique _ _ n
      (List.mem_reverse.mpr (List.mem_of_find?_eq_some hq)) hpx ?_
    intro y hy hpy
    have h1 : y.tx.inMsg = k := by simpa using hpy
    have h0 := @List.find?_some _ _ _ _ hq
    have h2 : n.tx.inMsg = k := by simpa using h0
    exact List.inj_on_of_nodup_map hnd (List.mem_reverse.mp hy)
      (List.mem_of_find?_eq_some hq) (h1.trans h2.symm)
  | none =>
    rw [List.find?_eq_none]
    rw [List.find?_eq_none] at hq
    intro x hx
    exact hq x (List.mem_reverse.mp hx)

theorem subtree_mem_deleteChildren (db : TxDb) (tid fuel : Nat) (outs : List Nat) (k2 x : Nat)
    (hmem : k2 ∈ outs) (hx : x ∈ (delete_db_subtree db tid fuel k2).1) :
    x ∈ (deleteChildren db tid fuel outs).1 := by
  induction outs with
  | nil => cases hmem
  | cons o os ih =>
    simp only [deleteChildren]
    rcases List.mem_cons.mp hmem with h1 | h2
    · subst h1
      exact List.mem_append_left _ hx
    · exact List.mem_append_right _ (ih h2)

theorem storedReach_deleted (db : TxDb) (tid : Nat) :
    ∀ (l k0 k : Nat), StoredReach db tid l k0 k → ∀ fuel, l + 1 ≤ fuel →
      k ∈ (delete_db_subtree db tid fuel k0).1 := by
  intro l k0 k hreach
  induction hreach with
  | refl kk nd hnd =>
    intro fuel hfuel
    cases fuel with
    | zero => omega
    | succ f =>
      simp only [delete_db_subtree, hnd]
      exact List.mem_append_right _ (List.mem_singleton_self _)
  | step kk nd k2 l2 k3 hnd hk2 hreach2 ih =>
    intro fuel hfuel
    cases fuel with
    | zero => omega
    | succ f =>
      simp only [delete_db_subtree, hnd]
      apply List.mem_append_left
      exact subtree_mem_deleteChildren db tid f nd.tx.outs k2 k3 hk2 (ih f (by omega))

theorem collectDeletions_mono (db : TxDb) (tid fuel : Nat) (flat : List FlatNode)
    (acc : List Nat × List (String × (Nat × Nat))) (x : Nat) (hx : x ∈ acc.1) :
    x ∈ (flat.foldl (fun acc n =>
      if n.emulated then acc
      else
        let r := delete_db_subtree db tid fuel n.tx.inMsg
        (acc.1 ++ r.1, acc.2 ++ r.2)) acc).1 := by
  induction flat generalizing acc with
  | nil => exact hx
  | cons n ns ih =>
    simp only [List.foldl_cons]
    apply ih
    by_cases he : n.emulated = true
    · simp only [he, if_true]
      exact hx
    · simp only [he, if_false, Bool.false_eq_true]
      exact List.mem_append_left _ hx

theorem collectDeletions_mem (db : TxDb) (tid fuel : Nat) (flat : List FlatNode)
    (n : FlatNode) (hne : n.emulated = false) (x : Nat)
    (hx : x ∈ (delete_db_subtree db tid fuel n.tx.inMsg).1) :
    ∀ (acc : List Nat × List (String × (Nat × Nat))), n ∈ flat →
      x ∈ (flat.foldl (fun acc n =>
        if n.emulated then acc
        else
          let r := delete_db_subtree db tid fuel n.tx.inMsg
          (acc.1 ++ r.1, acc.2 ++ r.2)) acc).1 := by
  induction flat with
  | nil => intro acc hn; cases hn
  | cons m ms ih =>
    intro acc hn
    simp only [List.foldl_cons]
    rcases List.mem_cons.mp hn with h1 | h2
    · subst h1
      apply collectDeletions_mono
      simp only [hne, if_false, Bool.false_eq_true]
      exact List.mem_append_right _ hx
    · exact ih _ h2

theorem filterMap_const_none {α β : Type} (l : List α) :
    l.filterMap (fun _ => (none : Option β)) = [] := by
  induction l with
  | nil => rfl
  | cons e rest ih => simp [List.filterMap_cons, ih]

/-- C9: when a trace is inserted, every non-emulated node's previously
    stored subtree — each key reachable from the node's in-message hash by
    walking stored out-message references — lands in the collected hdel
    keys; the whole command list (deletions first, then node insertions,
    then interface writes, then the new_trace publish) is applied in one
    MULTI/EXEC step by the model's single execCmds call; and the final
    per-trace transaction table holds exactly the freshly flattened nodes,
    minus the deleted keys, over the untouched remainder of the prior
    state, so it reflects only the latest tree. -/
theorem c9_trace_insert_transactional :
    ∀ (pre : KvState) (fuel traceId : Nat) (root : TTree),
    ((bfsFlatten [root]).map (fun n => n.tx.inMsg)).Nodup →
    (∀ k : Nat,
      assocGet (start_up_run pre fuel traceId root).txFields (traceId, k) =
        match (bfsFlatten [root]).find? (fun n => n.tx.inMsg == k) with
        | some n => some ⟨n.tx, n.emulated⟩
        | none =>
          if k ∈ (collectDeletions pre.txFields traceId fuel (bfsFlatten [root])).1 then none
          else assocGet pre.txFields (traceId, k))
    ∧ (∀ n ∈ bfsFlatten [root], n.emulated = false →
      ∀ (l k : Nat), StoredReach pre.txFields traceId l n.tx.inMsg k → l + 1 ≤ fuel →
        k ∈ (collectDeletions pre.txFields traceId fuel (bfsFlatten [root])).1)
    ∧ (start_up_run pre fuel traceId root).published =
        pre.published ++ [("new_trace", traceId)] := by
  intro pre fuel traceId root hnd
  have hcmds : start_up_cmds pre.txFields fuel traceId root =
      ((collectDeletions pre.txFields traceId fuel (bfsFlatten [root])).1.map
        (RedisCmd.hdel traceId)) ++
      ((collectDeletions pre.txFields traceId fuel (bfsFlatten [root])).2.map
        (fun p => RedisCmd.zrem p.1 p.2)) ++
      ((bfsFlatten [root]).flatMap (fun n =>
        [RedisCmd.hset traceId n.tx.inMsg ⟨n.tx, n.emulated⟩,
         RedisCmd.zadd n.tx.account (traceId, n.tx.inMsg) n.tx.lt])) ++
      ((collectAddrIfaces (bfsFlatten [root])).map
        (fun p => RedisCmd.hsetIfaces traceId p.1 p.2)) ++
      [RedisCmd.publish "new_trace" traceId] := rfl
  refine ⟨?_, ?_, ?_⟩
  · intro k
    show assocGet (execCmds pre (start_up_cmds pre.txFields fuel traceId root)).txFields
      (traceId, k) = _
    rw [hcmds]
    show assocGet (List.foldl applyCmd pre _).txFields (traceId, k) = _
    rw [List.foldl_append, List.foldl_append, List.foldl_append, List.foldl_append]
    rw [show ∀ (s : KvState) (c : RedisCmd), List.foldl applyCmd s [c] = applyCmd s c from
      fun s c => rfl]
    rw [show ∀ (s : KvState), (applyCmd s (RedisCmd.publish "new_trace" traceId)).txFields =
      s.txFields from fun s => rfl]
    show assocGet (execCmds (execCmds (execCmds (execCmds pre
        ((collectDeletions pre.txFields traceId fuel (bfsFlatten [root])).1.map
          (RedisCmd.hdel traceId)))
        ((collectDeletions pre.txFields traceId fuel (bfsFlatten [root])).2.map
          (fun p => RedisCmd.zrem p.1 p.2)))
        ((bfsFlatten [root]).flatMap (fun n =>
          [RedisCmd.hset traceId n.tx.inMsg ⟨n.tx, n.emulated⟩,
           RedisCmd.zadd n.tx.account (traceId, n.tx.inMsg) n.tx.lt])))
        ((collectAddrIfaces (bfsFlatten [root])).map
          (fun p => RedisCmd.hsetIfaces traceId p.1 p.2))).txFields (traceId, k) = _
    rw [txFields_exec_ifaces]
    rw [txFields_exec_inserts]
    rw [txFields_exec_zrems]
    rw [txFields_exec_hdels]
    rw [find?_reverse_of_nodup_keys _ _ hnd]
  · intro n hn hne l k hreach hfuel
    exact collectDeletions_mem pre.txFields traceId fuel (bfsFlatten [root]) n hne k
      (storedReach_deleted pre.txFields traceId l n.tx.inMsg k hreach fuel hfuel) ([], []) hn
  · show (execCmds pre (start_up_cmds pre.txFields fuel traceId root)).published = _
    rw [published_exec, hcmds]
    congr 1
    rw [List.filterMap_append, List.filterMap_append, List.filterMap_append,
      List.filterMap_append]
    rw [List.filterMap_map, List.filterMap_map, List.filterMap_map]
    rw [show ∀ (l : List Nat), List.filterMap
        ((fun c => match c with
          | RedisCmd.publish ch p => some (ch, p)
          | _ => none) ∘ RedisCmd.hdel traceId) l = [] from
      fun l => filterMap_const_none l]
    rw [show ∀ (l : List (String × (Nat × Nat))), List.filterMap
        ((fun c => match c with
          | RedisCmd.publish ch p => some (ch, p)
          | _ => none) ∘ fun p => RedisCmd.zrem p.1 p.2) l = [] from
      fun l => filterMap_const_none l]
    rw [show ∀ (l : List (String × List String)), List.filterMap
        ((fun c => match c with
          | RedisCmd.publish ch p => some (ch, p)
          | _ => none) ∘ fun p => RedisCmd.hsetIfaces traceId p.1 p.2) l = [] from
      fun l => filterMap_const_none l]
    rw [show List.filterMap (fun c => match c with
        | RedisCmd.publish ch p => some (ch, p)
        | _ => none) ((bfsFlatten [root]).flatMap (fun n =>
          [RedisCmd.hset traceId n.tx.inMsg ⟨n.tx, n.emulated⟩,
           RedisCmd.zadd n.tx.account (traceId, n.tx.inMsg) n.tx.lt])) = [] from ?_]
    · rfl
    · induction bfsFlatten [root] with
      | nil => rfl
      | cons m ms ih =>
        rw [List.flatMap_cons, List.filterMap_append, ih]
        rfl

theorem c9_witness :
    assocGet (start_up_run
      { txFields := [((9, 100), ⟨⟨100, [200], "0:aa", 4⟩, true⟩),
                     ((9, 200), ⟨⟨200, [], "0:bb", 6⟩, true⟩)],
        ifaceFields := [], zsets := [], published := [] } 5 9
      (TTree.mk ⟨100, [], "0:aa", 5⟩ false ["jetton_wallet"] [])).txFields (9, 200) = none
    ∧ (start_up_run
      { txFields := [((9, 100), ⟨⟨100, [200], "0:aa", 4⟩, true⟩),
                     ((9, 200), ⟨⟨200, [], "0:bb", 6⟩, true⟩)],
        ifaceFields := [], zsets := [], published := [] } 5 9
      (TTree.mk ⟨100, [], "0:aa", 5⟩ false ["jetton_wallet"] [])).published =
      [("new_trace", 9)] :=
  ⟨((c9_trace_insert_transactional
      { txFields := [((9, 100), ⟨⟨100, [200], "0:aa", 4⟩, true⟩),
                     ((9, 200), ⟨⟨200, [], "0:bb", 6⟩, true⟩)],
        ifaceFields := [], zsets := [], published := [] } 5 9
      (TTree.mk ⟨100, [], "0:aa", 5⟩ false ["jetton_wallet"] []) (by simp [bfsFlatten])).1 200).trans
    (by simp [bfsFlatten, collectDeletions, delete_db_subtree, deleteChildren, assocGet,
      List.find?]),
   (c9_trace_insert_transactional
      { txFields := [((9, 100), ⟨⟨100, [200], "0:aa", 4⟩, true⟩),
                     ((9, 200), ⟨⟨200, [], "0:bb", 6⟩, true⟩)],
        ifaceFields := [], zsets := [], published := [] } 5 9
      (TTree.mk ⟨100, [], "0:aa", 5⟩ false ["jetton_wallet"] []) (by simp [bfsFlatten])).2.2⟩


end TonIndex
